import Mathlib

/-!
Parking lot simulation: slot lifecycle, billing and the click state machine

A shallow embedding of `src/main.cpp`.

Modelling conventions.
* C++ `int` values are `Int`; the coordinates handled here stay far away from
  the 32-bit range, and signed overflow has no defined result in C++ anyway.
* `steady_clock::now()` is an explicit input `now : ℚ` (seconds); a `double`
  amount of seconds or of Tk is an exact rational.  One callback invocation
  works with one clock reading.
* `std::vector<Slot>` is `List Slot`, `std::map` is an association list.
* Rendering calls have no effect on the state except for the two places where
  `render` writes members (`confirmYesRect`/`confirmNoRect` and the expiry of
  `lastMessage`); only these effects are kept.
* The line printed on `std::cout` after a removal is kept as a list of
  messages, oldest first.
-/

namespace Parking

/-! ## Configuration constants -/

def WINDOW_W : Int := 1000
def WINDOW_H : Int := 900
def SLOT_W : Int := 280
def SLOT_H : Int := 280
def GRID_COLS : Int := 3
def GRID_ROWS : Int := 2
def GAP_X : Int := 50
def GAP_Y : Int := 80

def MAX_SECONDS : Int := 30
def MIN_FIRST_MIN_TK : ℚ := 100
def PENALTY_PER_EXTRA_SEC : ℚ := 1

def MESSAGE_DISPLAY_SEC : ℚ := 5

/-- The value of freeglut's `GLUT_LEFT_BUTTON` (header outside the repository). -/
def GLUT_LEFT_BUTTON : Int := 0
/-- The value of freeglut's `GLUT_DOWN` (header outside the repository). -/
def GLUT_DOWN : Int := 0

/-! ## Helpers -/

structure Rect where
  x : Int
  y : Int
  w : Int
  h : Int
deriving DecidableEq, Repr

def Rect.contains (r : Rect) (px py : Int) : Bool :=
  decide (px ≥ r.x) && decide (px ≤ r.x + r.w) && decide (py ≥ r.y) && decide (py ≤ r.y + r.h)

structure TextureInfo where
  id : Nat
  w : Int
  h : Int
deriving DecidableEq, Repr

/-! ## Vehicle -/

inductive VehicleType where
  | NONE
  | CAR
  | BIKE
  | TRUCK
deriving DecidableEq, Repr

structure Vehicle where
  type : VehicleType
  texId : Nat
  texW : Int
  texH : Int
  name : String
deriving DecidableEq, Repr

/-- The default constructor `Vehicle()`. -/
def Vehicle.none : Vehicle :=
  { type := VehicleType.NONE, texId := 0, texW := 0, texH := 0, name := "None" }

/-! ## Slot -/

structure Slot where
  x : Int
  y : Int
  w : Int
  h : Int
  parked : Bool
  vehicle : Vehicle
  start_time : ℚ
  overstay : Bool
deriving DecidableEq

/-- The constructor `Slot(x_, y_, w_, h_)`; `start_time` is value-initialised to the epoch. -/
def Slot.new (x y w h : Int) : Slot :=
  { x := x, y := y, w := w, h := h, parked := false, vehicle := Vehicle.none,
    start_time := 0, overstay := false }

def Slot.contains (s : Slot) (mx my : Int) : Bool :=
  decide (mx ≥ s.x) && decide (mx ≤ s.x + s.w) && decide (my ≥ s.y) && decide (my ≤ s.y + s.h)

def Slot.elapsedSeconds (s : Slot) (now : ℚ) : ℚ :=
  if !s.parked then 0 else now - s.start_time

def Slot.park (s : Slot) (v : Vehicle) (now : ℚ) : Slot :=
  { s with parked := true, vehicle := v, start_time := now, overstay := false }

def Slot.computeBill (s : Slot) (now : ℚ) : ℚ :=
  if !s.parked then 0
  else
    let elapsed := s.elapsedSeconds now
    if elapsed ≤ (MAX_SECONDS : ℚ) then MIN_FIRST_MIN_TK
    else
      let extra : ℚ := ((⌊elapsed - (MAX_SECONDS : ℚ)⌋ : Int) : ℚ)
      MIN_FIRST_MIN_TK + extra * PENALTY_PER_EXTRA_SEC

/-- The bill returned and the slot after the call. -/
def Slot.removeAndGetBill (s : Slot) (now : ℚ) : ℚ × Slot :=
  let bill := s.computeBill now
  (bill, { s with parked := false, vehicle := Vehicle.none, overstay := false })

/-- The body of the loop of `ParkingManager::update` for one slot. -/
def Slot.refresh (s : Slot) (now : ℚ) : Slot :=
  if s.parked && !s.overstay then
    let elapsed := s.elapsedSeconds now
    if elapsed > (MAX_SECONDS : ℚ) then { s with overstay := true } else s
  else s

/-! ## ParkingManager -/

/-- The content of the line `Slot <n> removed. Bill: <b> Tk`. -/
structure Message where
  slotNo : Int
  bill : ℚ
deriving DecidableEq

structure ParkingManager where
  slots : List Slot
  textures : List (String × TextureInfo)
  vehicles : List (VehicleType × Vehicle)
  selectedSlot : Int
  showSelectionMenu : Bool
  menuX : Int
  menuY : Int
  showConfirm : Bool
  confirmSlot : Int
  confirmYesRect : Rect
  confirmNoRect : Rect
  /-- The value `none` stands for the empty string. -/
  lastMessage : Option Message
  lastMsgTime : ℚ
  totalCollected : ℚ
  hoverSlot : Int
  /-- The removal lines written to `std::cout` so far, oldest first. -/
  cout : List Message
deriving DecidableEq

/-- The assignment `m[k] = v` on a `std::map`. -/
def mapAssign {κ α : Type} [DecidableEq κ] : List (κ × α) → κ → α → List (κ × α)
  | [], k, v => [(k, v)]
  | (k0, v0) :: rest, k, v =>
    if k0 = k then (k, v) :: rest else (k0, v0) :: mapAssign rest k v

/-- The lookup `m.at(k)`; `none` stands for the `std::out_of_range` exception. -/
def mapAt {κ α : Type} [DecidableEq κ] : List (κ × α) → κ → Option α
  | [], _ => none
  | (k0, v0) :: rest, k => if k0 = k then some v0 else mapAt rest k

/-- The read `m[k]`: the stored value and the map, which gains a default entry when the
key is missing. -/
def mapIndex {κ α : Type} [DecidableEq κ] (m : List (κ × α)) (k : κ) (dflt : α) :
    α × List (κ × α) :=
  match mapAt m k with
  | some v => (v, m)
  | none => (dflt, mapAssign m k dflt)

def initSlots : List Slot :=
  let totalW := GRID_COLS * SLOT_W + (GRID_COLS - 1) * GAP_X
  let totalH := GRID_ROWS * SLOT_H + (GRID_ROWS - 1) * GAP_Y
  let startX := Int.tdiv (WINDOW_W - totalW) 2
  let startY := Int.tdiv (WINDOW_H - totalH) 2
  (List.range GRID_ROWS.toNat).flatMap fun r =>
    (List.range GRID_COLS.toNat).map fun c =>
      let sx := startX + (c : Int) * (SLOT_W + GAP_X)
      let sy := startY + (r : Int) * (SLOT_H + GAP_Y)
      Slot.new sx sy SLOT_W SLOT_H

/-- The constructor.  `confirmYesRect` and `confirmNoRect` have no initialiser, so the
values they start with are inputs. -/
def ParkingManager.new (yes no : Rect) : ParkingManager :=
  { slots := initSlots, textures := [], vehicles := [],
    selectedSlot := -1, showSelectionMenu := false, menuX := 0, menuY := 0,
    showConfirm := false, confirmSlot := -1, confirmYesRect := yes, confirmNoRect := no,
    lastMessage := none, lastMsgTime := 0, totalCollected := 0, hoverSlot := -1,
    cout := [] }

namespace ParkingManager

/-- The result `none` stands for the exception thrown by `textures.at`. -/
def setTextures (m : ParkingManager) (t : List (String × TextureInfo)) :
    Option ParkingManager :=
  match mapAt t "car", mapAt t "bike", mapAt t "truck" with
  | some car, some bike, some truck =>
    let v1 := mapAssign m.vehicles VehicleType.CAR
      { type := VehicleType.CAR, texId := car.id, texW := car.w, texH := car.h, name := "Car" }
    let v2 := mapAssign v1 VehicleType.BIKE
      { type := VehicleType.BIKE, texId := bike.id, texW := bike.w, texH := bike.h,
        name := "Bike" }
    let v3 := mapAssign v2 VehicleType.TRUCK
      { type := VehicleType.TRUCK, texId := truck.id, texW := truck.w, texH := truck.h,
        name := "Truck" }
    some { m with textures := t, vehicles := v3 }
  | _, _, _ => none

/-- The three iterations `i = 0, 1, 2` of the loop of `handleSelectionClick`, given as
the list of the values of `i` still to be tried. -/
def handleSelectionClick.loop (m : ParkingManager) (mx my : Int) (now : ℚ) :
    List Int → Bool × ParkingManager
  | [] => (false, m)
  | i :: rest =>
    let boxW : Int := 92
    let boxH : Int := 120
    let pad : Int := 12
    let bx := m.menuX + i * (boxW + pad)
    let by_ := m.menuY
    let r : Rect := { x := bx, y := by_, w := boxW, h := boxH }
    if r.contains mx my then
      let c0 := VehicleType.NONE
      let c1 := if i = 0 then VehicleType.CAR else c0
      let c2 := if i = 1 then VehicleType.BIKE else c1
      let chosen := if i = 2 then VehicleType.TRUCK else c2
      let m1 :=
        if chosen ≠ VehicleType.NONE ∧ m.selectedSlot ≥ 0
            ∧ m.selectedSlot < (m.slots.length : Int) then
          match m.slots[m.selectedSlot.toNat]? with
          | some s =>
            if !s.parked then
              let (v, vs) := mapIndex m.vehicles chosen Vehicle.none
              { m with vehicles := vs,
                       slots := m.slots.set m.selectedSlot.toNat (s.park v now) }
            else m
          | none => m
        else m
      (true, { m1 with showSelectionMenu := false, selectedSlot := -1 })
    else handleSelectionClick.loop m mx my now rest

def handleSelectionClick (m : ParkingManager) (mx my : Int) (now : ℚ) :
    Bool × ParkingManager :=
  handleSelectionClick.loop m mx my now [0, 1, 2]

def handleConfirmClick (m : ParkingManager) (mx my : Int) (now : ℚ) :
    Bool × ParkingManager :=
  if m.confirmSlot < 0 ∨ m.confirmSlot ≥ (m.slots.length : Int) then
    (true, { m with showConfirm := false, confirmSlot := -1 })
  else if m.confirmYesRect.contains mx my then
    match m.slots[m.confirmSlot.toNat]? with
    | some s =>
      let (bill, s1) := s.removeAndGetBill now
      let msg : Message := { slotNo := m.confirmSlot + 1, bill := bill }
      (true, { m with slots := m.slots.set m.confirmSlot.toNat s1,
                      totalCollected := m.totalCollected + bill,
                      lastMessage := some msg, lastMsgTime := now,
                      cout := m.cout ++ [msg],
                      showConfirm := false, confirmSlot := -1 })
    | none => (true, m)
  else if m.confirmNoRect.contains mx my then
    (true, { m with showConfirm := false, confirmSlot := -1 })
  else (false, m)

/-- The loop over the slots of `onMouseClick`: the slots still to be tested and the index
of the first of them. -/
def onMouseClick.scan (m : ParkingManager) (mx my : Int) : List Slot → Nat → ParkingManager
  | [], _ => m
  | s :: rest, i =>
    if s.contains mx my then
      if !s.parked then
        let boxW : Int := 3 * 92 + 2 * 12
        let bx := s.x + Int.tdiv (s.w - boxW) 2
        let by0 := s.y + s.h + 10
        let by_ := if by0 + 140 > WINDOW_H then s.y - 140 else by0
        { m with selectedSlot := (i : Int), menuX := max 8 bx, menuY := max 8 by_,
                 showSelectionMenu := true }
      else
        { m with showConfirm := true, confirmSlot := (i : Int) }
    else onMouseClick.scan m mx my rest (i + 1)

def onMouseClick (m : ParkingManager) (mx my button state : Int) (now : ℚ) :
    ParkingManager :=
  if button ≠ GLUT_LEFT_BUTTON ∨ state ≠ GLUT_DOWN then m
  else if m.showConfirm then
    let (handled, m1) := handleConfirmClick m mx my now
    if handled then m1 else { m1 with showConfirm := false, confirmSlot := -1 }
  else if m.showSelectionMenu then
    let (handled, m1) := handleSelectionClick m mx my now
    if handled then m1 else { m1 with showSelectionMenu := false, selectedSlot := -1 }
  else onMouseClick.scan m mx my m.slots 0

/-- The loop of `onMouseMove`, entered with `hoverSlot = -1`. -/
def onMouseMove.scan (mx my : Int) : List Slot → Nat → Int
  | [], _ => -1
  | s :: rest, i => if s.contains mx my then (i : Int) else onMouseMove.scan mx my rest (i + 1)

def onMouseMove (m : ParkingManager) (mx my : Int) : ParkingManager :=
  { m with hoverSlot := onMouseMove.scan mx my m.slots 0 }

def update (m : ParkingManager) (now : ℚ) : ParkingManager :=
  { m with slots := m.slots.map fun s => s.refresh now }

/-- The reads `textures["car"]`, `textures["bike"]`, `textures["truck"]` of the menu. -/
def renderSelectionMenu (m : ParkingManager) : ParkingManager :=
  let t1 := (mapIndex m.textures "car" { id := 0, w := 0, h := 0 }).2
  let t2 := (mapIndex t1 "bike" { id := 0, w := 0, h := 0 }).2
  let t3 := (mapIndex t2 "truck" { id := 0, w := 0, h := 0 }).2
  { m with textures := t3 }

def renderConfirmDialog (m : ParkingManager) : ParkingManager :=
  let dw : Int := 520
  let dh : Int := 150
  let dx := Int.tdiv (WINDOW_W - dw) 2
  let dy := Int.tdiv (WINDOW_H - dh) 2
  let bw : Int := 130
  let bh : Int := 48
  let spacing : Int := 40
  let bx_yes := dx + Int.tdiv dw 2 - bw - Int.tdiv spacing 2
  let bx_no := dx + Int.tdiv dw 2 + Int.tdiv spacing 2
  let by_btn := dy + dh - bh - 18
  { m with confirmYesRect := { x := bx_yes, y := by_btn, w := bw, h := bh },
           confirmNoRect := { x := bx_no, y := by_btn, w := bw, h := bh } }

def renderTransientMessage (m : ParkingManager) (now : ℚ) : ParkingManager :=
  match m.lastMessage with
  | none => m
  | some _ =>
    let elapsed := now - m.lastMsgTime
    if elapsed > MESSAGE_DISPLAY_SEC then { m with lastMessage := none } else m

def render (m : ParkingManager) (now : ℚ) : ParkingManager :=
  let m1 := if m.showSelectionMenu then renderSelectionMenu m else m
  let m2 := if m1.showConfirm then renderConfirmDialog m1 else m1
  renderTransientMessage m2 now

end ParkingManager

/-! ## The callbacks as events -/

/-- One call made by the GLUT callbacks (`mouseHandler`, `passiveMotionHandler`,
`timerFunc`, `display`), with the clock reading it works with. -/
inductive Event where
  | click (mx my button state : Int) (now : ℚ)
  | move (mx my : Int)
  | update (now : ℚ)
  | render (now : ℚ)

def step (m : ParkingManager) : Event → ParkingManager
  | Event.click mx my button state now => m.onMouseClick mx my button state now
  | Event.move mx my => m.onMouseMove mx my
  | Event.update now => m.update now
  | Event.render now => m.render now

def run (m : ParkingManager) (es : List Event) : ParkingManager :=
  es.foldl step m

/-- The states the program can be in: the constructor's state, followed by calls of
`setTextures` that return and by callbacks. -/
inductive Reachable : ParkingManager → Prop
  | new (yes no : Rect) : Reachable (ParkingManager.new yes no)
  | setTextures {m m1 : ParkingManager} (t : List (String × TextureInfo)) :
      Reachable m → m.setTextures t = some m1 → Reachable m1
  | step {m : ParkingManager} (e : Event) : Reachable m → Reachable (step m e)

/-! ## Pieces of the click handlers, named for the proofs -/

/-- The vehicle type that `handleSelectionClick` chooses in iteration `i`. -/
def chosenOf (i : Int) : VehicleType :=
  if i = 2 then VehicleType.TRUCK
  else if i = 1 then VehicleType.BIKE
  else if i = 0 then VehicleType.CAR
  else VehicleType.NONE

/-- The guarded call `slots[selectedSlot].park(vehicles[chosen])` of
`handleSelectionClick`. -/
def ParkingManager.parkSelected (m : ParkingManager) (chosen : VehicleType) (now : ℚ) :
    ParkingManager :=
  if chosen ≠ VehicleType.NONE ∧ m.selectedSlot ≥ 0
      ∧ m.selectedSlot < (m.slots.length : Int) then
    match m.slots[m.selectedSlot.toNat]? with
    | some s =>
      if !s.parked then
        { m with vehicles := (mapIndex m.vehicles chosen Vehicle.none).2,
                 slots := m.slots.set m.selectedSlot.toNat
                   (s.park (mapIndex m.vehicles chosen Vehicle.none).1 now) }
      else m
    | none => m
  else m

/-- The assignments `showSelectionMenu=false; selectedSlot=-1;`. -/
def ParkingManager.closeMenu (m : ParkingManager) : ParkingManager :=
  { m with showSelectionMenu := false, selectedSlot := -1 }

/-- The assignments `showConfirm=false; confirmSlot=-1;`. -/
def ParkingManager.closeConfirm (m : ParkingManager) : ParkingManager :=
  { m with showConfirm := false, confirmSlot := -1 }

/-- The `i`-th option box of the selection menu. -/
def ParkingManager.optionBox (m : ParkingManager) (i : Int) : Rect :=
  { x := m.menuX + i * 104, y := m.menuY, w := 92, h := 120 }

/-- The body of the loop of `onMouseClick` for the slot `s` of index `i` that contains
the click point. -/
def ParkingManager.hit (m : ParkingManager) (s : Slot) (i : Nat) : ParkingManager :=
  if !s.parked then
    { m with selectedSlot := (i : Int),
             menuX := max 8 (s.x + Int.tdiv (s.w - (3 * 92 + 2 * 12)) 2),
             menuY := max 8 (if s.y + s.h + 10 + 140 > WINDOW_H then s.y - 140
                             else s.y + s.h + 10),
             showSelectionMenu := true }
  else
    { m with showConfirm := true, confirmSlot := (i : Int) }

/-- The branch of `handleConfirmClick` taken for a click on `confirmYesRect`. -/
def ParkingManager.removeConfirmed (m : ParkingManager) (now : ℚ) : ParkingManager :=
  match m.slots[m.confirmSlot.toNat]? with
  | some s =>
    { m with slots := m.slots.set m.confirmSlot.toNat (s.removeAndGetBill now).2,
             totalCollected := m.totalCollected + (s.removeAndGetBill now).1,
             lastMessage := some { slotNo := m.confirmSlot + 1, bill := (s.removeAndGetBill now).1 },
             lastMsgTime := now,
             cout := m.cout ++ [{ slotNo := m.confirmSlot + 1, bill := (s.removeAndGetBill now).1 }],
             showConfirm := false, confirmSlot := -1 }
  | none => m

/-! ## Notions used to state the properties -/

/-- The geometry of a slot. -/
def Slot.rect (s : Slot) : Rect :=
  { x := s.x, y := s.y, w := s.w, h := s.h }


/-- The call of `removeAndGetBill` that an event makes in state `m`, if it makes one: the
index of the slot and the bill returned.  Such an event is a confirmed removal: a left
button press while the confirmation dialog is shown for a slot of the registry, at a point
of `confirmYesRect`. -/
def removalOf (m : ParkingManager) : Event → Option (Nat × ℚ)
  | Event.click mx my button state now =>
    if button = GLUT_LEFT_BUTTON ∧ state = GLUT_DOWN ∧ m.showConfirm = true
        ∧ 0 ≤ m.confirmSlot ∧ m.confirmSlot < (m.slots.length : Int)
        ∧ m.confirmYesRect.contains mx my = true then
      match m.slots[m.confirmSlot.toNat]? with
      | some s => some (m.confirmSlot.toNat, (s.removeAndGetBill now).1)
      | none => none
    else none
  | _ => none

/-- The calls of `removeAndGetBill` made along a sequence of events that starts in state
`m`, oldest first: slot index and bill returned. -/
def removals (m : ParkingManager) : List Event → List (Nat × ℚ)
  | [] => []
  | e :: es =>
    match removalOf m e with
    | some r => r :: removals (step m e) es
    | none => removals (step m e) es

/-- The bills returned by the calls of `removeAndGetBill` made along a sequence of events
that starts in state `m`, oldest first. -/
def removalBills (m : ParkingManager) (es : List Event) : List ℚ :=
  (removals m es).map Prod.snd

/-- The three operations on a slot. -/
inductive SlotOp where
  | park (v : Vehicle) (now : ℚ)
  | removeAndGetBill (now : ℚ)
  | refresh (now : ℚ)

/-- The slot after an operation. -/
def Slot.apply (s : Slot) : SlotOp → Slot
  | SlotOp.park v now => s.park v now
  | SlotOp.removeAndGetBill now => (s.removeAndGetBill now).2
  | SlotOp.refresh now => s.refresh now

/-- The vehicle table holds, for each of the three vehicle types, a vehicle of that type:
the state of `vehicles` after `setTextures`. -/
def VehiclesLoaded (m : ParkingManager) : Prop :=
  (mapAt m.vehicles VehicleType.CAR).map Vehicle.type = some VehicleType.CAR ∧
  (mapAt m.vehicles VehicleType.BIKE).map Vehicle.type = some VehicleType.BIKE ∧
  (mapAt m.vehicles VehicleType.TRUCK).map Vehicle.type = some VehicleType.TRUCK

instance (m : ParkingManager) : Decidable (VehiclesLoaded m) := by
  unfold VehiclesLoaded
  infer_instance

/-! ## Sample states -/

/-- A slot occupied by a car since clock reading 0. -/
def carSlot : Slot :=
  (Slot.new 30 130 280 280).park
    { type := VehicleType.CAR, texId := 1, texW := 64, texH := 64, name := "Car" } 0

/-- A texture table as `main` builds it. -/
def sampleTextures : List (String × TextureInfo) :=
  [("car", { id := 1, w := 64, h := 64 }), ("bike", { id := 2, w := 64, h := 64 }),
   ("truck", { id := 3, w := 64, h := 64 })]

/-- The state after the constructor and `setTextures`. -/
def booted : ParkingManager :=
  { ParkingManager.new { x := 0, y := 0, w := 0, h := 0 } { x := 0, y := 0, w := 0, h := 0 } with
    textures := sampleTextures,
    vehicles :=
      [(VehicleType.CAR,
          { type := VehicleType.CAR, texId := 1, texW := 64, texH := 64, name := "Car" }),
       (VehicleType.BIKE,
          { type := VehicleType.BIKE, texId := 2, texW := 64, texH := 64, name := "Bike" }),
       (VehicleType.TRUCK,
          { type := VehicleType.TRUCK, texId := 3, texW := 64, texH := 64, name := "Truck" })] }

/-- The state after a click on the corner (30, 130) of the empty first slot. -/
def selecting : ParkingManager :=
  { booted with selectedSlot := 0, menuX := 20, menuY := 420, showSelectionMenu := true }

/-- The state after the choice of the car in the menu at clock reading 0. -/
def parkedState : ParkingManager :=
  { booted with slots := booted.slots.set 0 carSlot, menuX := 20, menuY := 420 }

/-- The state after a refresh pass at clock reading 45. -/
def overstayed : ParkingManager :=
  { parkedState with slots := booted.slots.set 0 { carSlot with overstay := true } }

/-- The state after a click on the occupied first slot and a redraw. -/
def confirming : ParkingManager :=
  { parkedState with showConfirm := true, confirmSlot := 0,
                     confirmYesRect := { x := 350, y := 459, w := 130, h := 48 },
                     confirmNoRect := { x := 520, y := 459, w := 130, h := 48 } }

/-- A bike, as `setTextures` registers it for the sample textures. -/
def bikeVehicle : Vehicle :=
  { type := VehicleType.BIKE, texId := 2, texW := 64, texH := 64, name := "Bike" }

/-- A state in which the selection menu is shown for the occupied first slot. -/
def selectingOccupied : ParkingManager :=
  { parkedState with selectedSlot := 0, showSelectionMenu := true }

/-! ## Billing -/

theorem computeBill_of_parked (s : Slot) (now : ℚ) (hp : s.parked = true) :
    s.computeBill now =
      if now - s.start_time ≤ 30 then 100 else 100 + ((⌊now - s.start_time - 30⌋ : Int) : ℚ) := by
  simp [Slot.computeBill, Slot.elapsedSeconds, hp, MAX_SECONDS, MIN_FIRST_MIN_TK,
    PENALTY_PER_EXTRA_SEC]

theorem elapsedSeconds_of_parked (s : Slot) (now : ℚ) (hp : s.parked = true) :
    s.elapsedSeconds now = now - s.start_time := by
  simp [Slot.elapsedSeconds, hp]

theorem computeBill_of_elapsed_90 (s : Slot) (now : ℚ) (hp : s.parked = true)
    (he : s.elapsedSeconds now = 90) : s.computeBill now = 160 := by
  rw [elapsedSeconds_of_parked s now hp] at he
  rw [computeBill_of_parked s now hp, he]
  have hf : (⌊(90 : ℚ) - 30⌋ : Int) = 60 := by norm_num [Int.floor_eq_iff]
  rw [hf]
  norm_num

/-- C1: for an occupied slot with elapsed time `e`, `computeBill` is 100 when `e ≤ 30`
and `100 + ⌊e - 30⌋ * 1` when `e > 30`; so 30 s gives 100, 31.4 s, 31.0 s and 31.999 s
give 101, and 90 s gives 160. -/
theorem computeBill_flat_then_per_second (s : Slot) (now e : ℚ) (hp : s.parked = true)
    (he : s.elapsedSeconds now = e) :
    (e ≤ 30 → s.computeBill now = 100) ∧
    (e > 30 → s.computeBill now = 100 + ((⌊e - 30⌋ : Int) : ℚ) * 1) ∧
    (e = 30 → s.computeBill now = 100) ∧
    (e = 314 / 10 → s.computeBill now = 101) ∧
    (e = 31 → s.computeBill now = 101) ∧
    (e = 31999 / 1000 → s.computeBill now = 101) ∧
    (e = 90 → s.computeBill now = 160) := by
  rw [elapsedSeconds_of_parked s now hp] at he
  rw [computeBill_of_parked s now hp, he]
  refine ⟨?_, ?_, ?_, ?_, ?_, ?_, ?_⟩
  · intro h
    simp [h]
  · intro h
    simp [not_le.mpr h]
  · rintro rfl
    norm_num
  · rintro rfl
    have hf : (⌊(314 / 10 : ℚ) - 30⌋ : Int) = 1 := by norm_num [Int.floor_eq_iff]
    rw [hf]
    norm_num
  · rintro rfl
    have hf : (⌊(31 : ℚ) - 30⌋ : Int) = 1 := by norm_num [Int.floor_eq_iff]
    rw [hf]
    norm_num
  · rintro rfl
    have hf : (⌊(31999 / 1000 : ℚ) - 30⌋ : Int) = 1 := by norm_num [Int.floor_eq_iff]
    rw [hf]
    norm_num
  · rintro rfl
    have hf : (⌊(90 : ℚ) - 30⌋ : Int) = 60 := by norm_num [Int.floor_eq_iff]
    rw [hf]
    norm_num

theorem computeBill_flat_then_per_second_witness :
    carSlot.computeBill (314 / 10) = 101 :=
  (computeBill_flat_then_per_second carSlot (314 / 10) (314 / 10) rfl
    (by simp [Slot.elapsedSeconds, carSlot, Slot.park])).2.2.2.1 rfl

/-- C2: the help bar promises 100 Tk for the whole first minute, but a car parked for
45 seconds is billed 115 Tk: the flat fee ends at 30 seconds. -/
theorem computeBill_after_45_seconds :
    carSlot.elapsedSeconds 45 = 45 ∧ carSlot.computeBill 45 = 115 := by
  constructor
  · simp [Slot.elapsedSeconds, carSlot, Slot.park]
  · rw [computeBill_of_parked carSlot 45 rfl]
    have hf : (⌊(45 : ℚ) - carSlot.start_time - 30⌋ : Int) = 15 := by
      norm_num [Int.floor_eq_iff, carSlot, Slot.park]
    rw [hf]
    norm_num [carSlot, Slot.park]

/-- C3: `removeAndGetBill` on an occupied slot returns what `computeBill` returns at the
same clock reading; afterwards the slot is empty with the default vehicle and no overstay
flag, its elapsed time is 0 at every clock reading, and its geometry is as before; a
removal at 90 s returns 160. -/
theorem removeAndGetBill_returns_bill_and_empties (s : Slot) (now : ℚ)
    (hp : s.parked = true) :
    (s.removeAndGetBill now).1 = s.computeBill now ∧
    (s.removeAndGetBill now).2.parked = false ∧
    (s.removeAndGetBill now).2.vehicle = Vehicle.none ∧
    (s.removeAndGetBill now).2.overstay = false ∧
    (∀ later : ℚ, (s.removeAndGetBill now).2.elapsedSeconds later = 0) ∧
    ((s.removeAndGetBill now).2.x = s.x ∧ (s.removeAndGetBill now).2.y = s.y ∧
      (s.removeAndGetBill now).2.w = s.w ∧ (s.removeAndGetBill now).2.h = s.h) ∧
    (s.elapsedSeconds now = 90 → (s.removeAndGetBill now).1 = 160) := by
  refine ⟨rfl, rfl, rfl, rfl, ?_, ⟨rfl, rfl, rfl, rfl⟩, ?_⟩
  · intro later
    simp [Slot.removeAndGetBill, Slot.elapsedSeconds]
  · intro h
    exact computeBill_of_elapsed_90 s now hp h

theorem removeAndGetBill_returns_bill_and_empties_witness :
    (carSlot.removeAndGetBill 90).1 = 160 ∧ (carSlot.removeAndGetBill 90).2.parked = false :=
  ⟨(removeAndGetBill_returns_bill_and_empties carSlot 90 rfl).2.2.2.2.2.2
      (by simp [Slot.elapsedSeconds, carSlot, Slot.park]),
    (removeAndGetBill_returns_bill_and_empties carSlot 90 rfl).2.1⟩

/-! ## Revenue -/

theorem computeBill_nonneg (s : Slot) (now : ℚ) : 0 ≤ s.computeBill now := by
  unfold Slot.computeBill
  by_cases hp : s.parked = true
  · simp only [hp, Bool.not_true, Bool.false_eq_true, if_false]
    by_cases h : s.elapsedSeconds now ≤ (MAX_SECONDS : ℚ)
    · simp [h, MIN_FIRST_MIN_TK]
    · simp only [h, if_false]
      have h1 : (0 : ℚ) ≤ s.elapsedSeconds now - (MAX_SECONDS : ℚ) := by linarith [not_le.mp h]
      have h2 : (0 : Int) ≤ ⌊s.elapsedSeconds now - (MAX_SECONDS : ℚ)⌋ := Int.floor_nonneg.mpr h1
      have h3 : (0 : ℚ) ≤ ((⌊s.elapsedSeconds now - (MAX_SECONDS : ℚ)⌋ : Int) : ℚ) := by
        exact_mod_cast h2
      simp only [MIN_FIRST_MIN_TK, PENALTY_PER_EXTRA_SEC]
      linarith
  · simp [hp]

theorem selectionLoop_cons (m : ParkingManager) (mx my : Int) (now : ℚ) (i : Int)
    (rest : List Int) :
    ParkingManager.handleSelectionClick.loop m mx my now (i :: rest) =
      if (m.optionBox i).contains mx my = true then
        (true, (m.parkSelected (chosenOf i) now).closeMenu)
      else ParkingManager.handleSelectionClick.loop m mx my now rest := by
  by_cases h0 : i = 0
  · subst h0
    rfl
  · by_cases h1 : i = 1
    · subst h1
      rfl
    · by_cases h2 : i = 2
      · subst h2
        rfl
      · simp only [ParkingManager.handleSelectionClick.loop, chosenOf, h0, h1, h2, if_false,
          ParkingManager.parkSelected, ne_eq, not_true_eq_false, false_and]
        rfl

theorem parkSelected_total (m : ParkingManager) (c : VehicleType) (now : ℚ) :
    (m.parkSelected c now).totalCollected = m.totalCollected ∧
      (m.parkSelected c now).cout = m.cout := by
  unfold ParkingManager.parkSelected
  split_ifs
  · split
    · split_ifs <;> exact ⟨rfl, rfl⟩
    · exact ⟨rfl, rfl⟩
  · exact ⟨rfl, rfl⟩

theorem selectionLoop_total (m : ParkingManager) (mx my : Int) (now : ℚ) (l : List Int) :
    (ParkingManager.handleSelectionClick.loop m mx my now l).2.totalCollected
        = m.totalCollected ∧
      (ParkingManager.handleSelectionClick.loop m mx my now l).2.cout = m.cout := by
  induction l with
  | nil => exact ⟨rfl, rfl⟩
  | cons i rest ih =>
    rw [selectionLoop_cons]
    split_ifs
    · exact parkSelected_total m (chosenOf i) now
    · exact ih

theorem clickScan_cons (m : ParkingManager) (mx my : Int) (s : Slot) (rest : List Slot)
    (i : Nat) :
    ParkingManager.onMouseClick.scan m mx my (s :: rest) i =
      if s.contains mx my = true then m.hit s i
      else ParkingManager.onMouseClick.scan m mx my rest (i + 1) := rfl

theorem hit_total (m : ParkingManager) (s : Slot) (i : Nat) :
    (m.hit s i).totalCollected = m.totalCollected ∧ (m.hit s i).cout = m.cout := by
  unfold ParkingManager.hit
  split_ifs <;> exact ⟨rfl, rfl⟩

theorem clickScan_total (m : ParkingManager) (mx my : Int) (l : List Slot) (i : Nat) :
    (ParkingManager.onMouseClick.scan m mx my l i).totalCollected = m.totalCollected ∧
      (ParkingManager.onMouseClick.scan m mx my l i).cout = m.cout := by
  induction l generalizing i with
  | nil => exact ⟨rfl, rfl⟩
  | cons s rest ih =>
    rw [clickScan_cons]
    split_ifs
    · exact hit_total m s i
    · exact ih (i + 1)

theorem render_total (m : ParkingManager) (now : ℚ) :
    (m.render now).totalCollected = m.totalCollected ∧ (m.render now).cout = m.cout := by
  unfold ParkingManager.render ParkingManager.renderTransientMessage
    ParkingManager.renderConfirmDialog ParkingManager.renderSelectionMenu
  constructor <;> (simp only []; repeat' split) <;> rfl

/-- What one event does to the revenue and to the printed lines. -/
theorem step_total (m : ParkingManager) (e : Event) :
    (step m e).totalCollected = m.totalCollected + ((removalOf m e).map Prod.snd).getD 0 ∧
    (step m e).cout = m.cout ++
      ((removalOf m e).map fun r => ({ slotNo := (r.1 : Int) + 1, bill := r.2 } : Message)).toList := by
  cases e with
  | move mx my => simp [step, removalOf, ParkingManager.onMouseMove]
  | update now => simp [step, removalOf, ParkingManager.update]
  | render now => simpa [step, removalOf] using render_total m now
  | click mx my button state now =>
    simp only [step, removalOf, ParkingManager.onMouseClick]
    by_cases hb : button ≠ GLUT_LEFT_BUTTON ∨ state ≠ GLUT_DOWN
    · have hn : ¬ (button = GLUT_LEFT_BUTTON ∧ state = GLUT_DOWN ∧ m.showConfirm = true
          ∧ 0 ≤ m.confirmSlot ∧ m.confirmSlot < (m.slots.length : Int)
          ∧ m.confirmYesRect.contains mx my = true) := by
        rintro ⟨h1, h2, -⟩
        rcases hb with hb | hb
        · exact hb h1
        · exact hb h2
      simp [hb, hn]
    · have hb1 : button = GLUT_LEFT_BUTTON := by
        by_contra h
        exact hb (Or.inl h)
      have hb2 : state = GLUT_DOWN := by
        by_contra h
        exact hb (Or.inr h)
      simp only [hb, if_false, hb1, hb2, true_and]
      by_cases hc : m.showConfirm = true
      · simp only [hc, if_true, true_and, ParkingManager.handleConfirmClick]
        by_cases hr : m.confirmSlot < 0 ∨ m.confirmSlot ≥ (m.slots.length : Int)
        · have hn : ¬ (0 ≤ m.confirmSlot ∧ m.confirmSlot < (m.slots.length : Int)
              ∧ m.confirmYesRect.contains mx my = true) := by
            rintro ⟨h1, h2, -⟩
            omega
          simp [hr, hn]
        · have h0 : 0 ≤ m.confirmSlot := by omega
          have h1 : m.confirmSlot < (m.slots.length : Int) := by omega
          simp only [hr, if_false, h0, h1, true_and]
          by_cases hy : m.confirmYesRect.contains mx my = true
          · simp only [hy, if_true]
            cases hs : m.slots[m.confirmSlot.toNat]? with
            | none => simp
            | some s =>
              have hcast : ((m.confirmSlot.toNat : Nat) : Int) = m.confirmSlot :=
                Int.toNat_of_nonneg h0
              simp [Slot.removeAndGetBill, hcast]
          · simp only [hy]
            by_cases hno : m.confirmNoRect.contains mx my = true
            · simp [hno]
            · simp [hno]
      · simp only [hc]
        by_cases hm : m.showSelectionMenu = true
        · simp only [hm, if_true, ParkingManager.handleSelectionClick]
          have h := selectionLoop_total m mx my now [0, 1, 2]
          cases hl : ParkingManager.handleSelectionClick.loop m mx my now [0, 1, 2] with
          | mk handled m1 =>
            rw [hl] at h
            cases handled <;> simpa using h
        · simpa [hm] using clickScan_total m mx my m.slots 0

theorem removalOf_bill_nonneg (m : ParkingManager) (e : Event) :
    0 ≤ ((removalOf m e).map Prod.snd).getD 0 := by
  cases e with
  | move mx my => simp [removalOf]
  | update now => simp [removalOf]
  | render now => simp [removalOf]
  | click mx my button state now =>
    simp only [removalOf]
    split_ifs
    · cases hs : m.slots[m.confirmSlot.toNat]? with
      | none => simp
      | some s => simpa [Slot.removeAndGetBill] using computeBill_nonneg s now
    · simp

theorem run_total (m : ParkingManager) (es : List Event) :
    (run m es).totalCollected = m.totalCollected + (removalBills m es).sum := by
  induction es generalizing m with
  | nil => simp [run, removalBills, removals]
  | cons e es ih =>
    have h := (step_total m e).1
    have ih1 := ih (step m e)
    simp only [run, List.foldl_cons] at ih1 ⊢
    rw [ih1, h]
    simp only [removalBills, removals]
    cases hr : removalOf m e with
    | none => simp
    | some r =>
      obtain ⟨i, b⟩ := r
      simp [add_assoc]

theorem run_total_mono (m : ParkingManager) (es : List Event) :
    m.totalCollected ≤ (run m es).totalCollected := by
  induction es generalizing m with
  | nil => simp [run]
  | cons e es ih =>
    have h := (step_total m e).1
    have h0 := removalOf_bill_nonneg m e
    have ih1 := ih (step m e)
    simp only [run, List.foldl_cons] at ih1 ⊢
    linarith

theorem setTextures_total (m m1 : ParkingManager) (t : List (String × TextureInfo))
    (h : m.setTextures t = some m1) :
    m1.totalCollected = m.totalCollected ∧ m1.cout = m.cout ∧ m1.slots = m.slots ∧
      m1.showConfirm = m.showConfirm ∧ m1.showSelectionMenu = m.showSelectionMenu := by
  unfold ParkingManager.setTextures at h
  split at h
  · cases h
    exact ⟨rfl, rfl, rfl, rfl, rfl⟩
  · cases h

theorem reachable_total (m : ParkingManager) (h : Reachable m) :
    m.totalCollected = (m.cout.map Message.bill).sum := by
  induction h with
  | new yes no => simp [ParkingManager.new]
  | setTextures t _ hs ih =>
    obtain ⟨h1, h2, -⟩ := setTextures_total _ _ t hs
    rw [h1, h2, ih]
  | @step m0 e _ ih =>
    obtain ⟨h1, h2⟩ := step_total m0 e
    rw [h1, h2, ih]
    cases hr : removalOf m0 e with
    | none => simp
    | some r => simp

/-- C4: along every sequence of events the revenue grows by exactly the bills returned by
the `removeAndGetBill` calls of the confirmed removals, so from the initial state it is
their sum (and the sum of the bills on the printed removal lines); an event that is not a
confirmed removal leaves it unchanged, a confirmed removal adds its bill, which is at
least 0, and the revenue never decreases. -/
theorem totalCollected_is_sum_of_removal_bills (m : ParkingManager) (es : List Event) :
    (∀ yes no : Rect, (run (ParkingManager.new yes no) es).totalCollected
        = (removalBills (ParkingManager.new yes no) es).sum) ∧
    (run m es).totalCollected = m.totalCollected + (removalBills m es).sum ∧
    (Reachable m → m.totalCollected = (m.cout.map Message.bill).sum) ∧
    (∀ e : Event, removalOf m e = none →
        (step m e).totalCollected = m.totalCollected ∧ (step m e).cout = m.cout) ∧
    (∀ (e : Event) (i : Nat) (bill : ℚ), removalOf m e = some (i, bill) →
        (step m e).totalCollected = m.totalCollected + bill ∧ 0 ≤ bill ∧
        (step m e).cout = m.cout ++ [{ slotNo := (i : Int) + 1, bill := bill }]) ∧
    (∀ e : Event, m.totalCollected ≤ (step m e).totalCollected) ∧
    m.totalCollected ≤ (run m es).totalCollected ∧
    (∀ es1 : List Event, (run m es).totalCollected ≤ (run m (es ++ es1)).totalCollected) := by
  refine ⟨?_, run_total m es, reachable_total m, ?_, ?_, ?_, run_total_mono m es, ?_⟩
  · intro yes no
    have h := run_total (ParkingManager.new yes no) es
    simpa [ParkingManager.new] using h
  · intro e he
    have h := step_total m e
    simpa [he] using h
  · intro e i bill he
    have h := step_total m e
    have h0 := removalOf_bill_nonneg m e
    rw [he] at h h0
    exact ⟨by simpa using h.1, by simpa using h0, by simpa using h.2⟩
  · intro e
    have h := run_total_mono m [e]
    simpa [run] using h
  · intro es1
    have h := run_total_mono (run m es) es1
    simpa [run, List.foldl_append] using h

/-! ## Clicks in the idle mode -/

theorem initSlots_rects :
    initSlots.map Slot.rect =
      [{ x := 30, y := 130, w := 280, h := 280 }, { x := 360, y := 130, w := 280, h := 280 },
       { x := 690, y := 130, w := 280, h := 280 }, { x := 30, y := 490, w := 280, h := 280 },
       { x := 360, y := 490, w := 280, h := 280 }, { x := 690, y := 490, w := 280, h := 280 }] := by
  rfl

theorem initSlots_disjoint (mx my : Int) (i j : Nat) (r1 r2 : Rect)
    (h1 : (initSlots.map Slot.rect)[i]? = some r1)
    (h2 : (initSlots.map Slot.rect)[j]? = some r2) (hij : i ≠ j)
    (hc : r1.contains mx my = true) : r2.contains mx my = false := by
  rw [initSlots_rects] at h1 h2
  have hi : i < 6 := by
    have := (List.getElem?_eq_some.mp h1).1
    simpa using this
  have hj : j < 6 := by
    have := (List.getElem?_eq_some.mp h2).1
    simpa using this
  interval_cases i <;> interval_cases j <;>
    first
    | exact absurd rfl hij
    | (simp only [List.getElem?_cons_succ, List.getElem?_cons_zero, Option.some.injEq] at h1 h2
       subst h1
       subst h2
       simp only [Rect.contains, Bool.and_eq_true, decide_eq_true_eq, ge_iff_le] at hc
       simp only [Rect.contains, Bool.and_eq_false_iff, decide_eq_false_iff_not, ge_iff_le]
       omega)

theorem clickScan_first_hit (m : ParkingManager) (mx my : Int) (l : List Slot) :
    ∀ (k i : Nat) (s : Slot), l[i]? = some s → s.contains mx my = true →
      (∀ (j : Nat) (t : Slot), j < i → l[j]? = some t → t.contains mx my = false) →
      ParkingManager.onMouseClick.scan m mx my l k = m.hit s (k + i) := by
  induction l with
  | nil =>
    intro k i s hs
    simp at hs
  | cons a rest ih =>
    intro k i s hs hc hbefore
    rw [clickScan_cons]
    cases i with
    | zero =>
      simp only [List.getElem?_cons_zero, Option.some.injEq] at hs
      subst hs
      simp [hc]
    | succ i =>
      have ha : a.contains mx my = false := hbefore 0 a (Nat.succ_pos i) (by simp)
      simp only [ha, Bool.false_eq_true, if_false]
      rw [List.getElem?_cons_succ] at hs
      have h := ih (k + 1) i s hs hc (fun j t hj ht =>
        hbefore (j + 1) t (Nat.succ_lt_succ hj) (by simpa using ht))
      rw [h]
      congr 1
      omega

theorem clickScan_no_hit (m : ParkingManager) (mx my : Int) (l : List Slot) :
    ∀ k : Nat, (∀ t ∈ l, Slot.contains t mx my = false) →
      ParkingManager.onMouseClick.scan m mx my l k = m := by
  induction l with
  | nil =>
    intro k _
    rfl
  | cons a rest ih =>
    intro k h
    rw [clickScan_cons]
    have ha : a.contains mx my = false := h a (List.mem_cons_self a rest)
    simp only [ha, Bool.false_eq_true, if_false]
    exact ih (k + 1) (fun t ht => h t (List.mem_cons_of_mem a ht))

theorem onMouseClick_idle (m : ParkingManager) (mx my : Int) (now : ℚ)
    (h1 : m.showSelectionMenu = false) (h2 : m.showConfirm = false) :
    m.onMouseClick mx my GLUT_LEFT_BUTTON GLUT_DOWN now =
      ParkingManager.onMouseClick.scan m mx my m.slots 0 := by
  simp [ParkingManager.onMouseClick, h1, h2]

/-- C5: in the idle mode, with the slot geometry of `initSlots`, a left button press at a
point of slot `i` (edges and corners included) opens the selection menu for slot `i` when
the slot is empty and the removal confirmation for slot `i` when it is occupied, and
changes no slot; a press at a point of no slot changes nothing at all. -/
theorem idle_click_selects_or_confirms (m : ParkingManager) (mx my : Int) (now : ℚ)
    (hmenu : m.showSelectionMenu = false) (hconf : m.showConfirm = false)
    (hgeo : m.slots.map Slot.rect = initSlots.map Slot.rect) :
    (∀ (i : Nat) (s : Slot), m.slots[i]? = some s →
      s.x ≤ mx → mx ≤ s.x + s.w → s.y ≤ my → my ≤ s.y + s.h →
      (m.onMouseClick mx my GLUT_LEFT_BUTTON GLUT_DOWN now).slots = m.slots ∧
      (s.parked = false →
        (m.onMouseClick mx my GLUT_LEFT_BUTTON GLUT_DOWN now).showSelectionMenu = true ∧
        (m.onMouseClick mx my GLUT_LEFT_BUTTON GLUT_DOWN now).selectedSlot = (i : Int) ∧
        (m.onMouseClick mx my GLUT_LEFT_BUTTON GLUT_DOWN now).showConfirm = false) ∧
      (s.parked = true →
        (m.onMouseClick mx my GLUT_LEFT_BUTTON GLUT_DOWN now).showConfirm = true ∧
        (m.onMouseClick mx my GLUT_LEFT_BUTTON GLUT_DOWN now).confirmSlot = (i : Int) ∧
        (m.onMouseClick mx my GLUT_LEFT_BUTTON GLUT_DOWN now).showSelectionMenu = false)) ∧
    ((∀ s ∈ m.slots, ¬ (s.x ≤ mx ∧ mx ≤ s.x + s.w ∧ s.y ≤ my ∧ my ≤ s.y + s.h)) →
      m.onMouseClick mx my GLUT_LEFT_BUTTON GLUT_DOWN now = m) := by
  rw [onMouseClick_idle m mx my now hmenu hconf]
  constructor
  · intro i s hs hx1 hx2 hy1 hy2
    have hc : s.contains mx my = true := by
      simp [Slot.contains, hx1, hx2, hy1, hy2]
    have hbefore : ∀ (j : Nat) (t : Slot), j < i → m.slots[j]? = some t →
        t.contains mx my = false := by
      intro j t hj ht
      have e1 : (initSlots.map Slot.rect)[i]? = some s.rect := by
        rw [← hgeo, List.getElem?_map, hs]
        rfl
      have e2 : (initSlots.map Slot.rect)[j]? = some t.rect := by
        rw [← hgeo, List.getElem?_map, ht]
        rfl
      exact initSlots_disjoint mx my i j s.rect t.rect e1 e2 (by omega) hc
    have h := clickScan_first_hit m mx my m.slots 0 i s hs hc hbefore
    rw [h, Nat.zero_add]
    refine ⟨?_, ?_, ?_⟩
    · unfold ParkingManager.hit
      split_ifs <;> rfl
    · intro hp
      simp [ParkingManager.hit, hp, hconf]
    · intro hp
      simp [ParkingManager.hit, hp, hmenu]
  · intro hnone
    apply clickScan_no_hit
    intro t ht
    have h := hnone t ht
    simp only [Slot.contains, Bool.and_eq_false_iff, decide_eq_false_iff_not, ge_iff_le]
    by_contra hcon
    push_neg at hcon
    exact h ⟨hcon.1.1.1, hcon.1.1.2, hcon.1.2, hcon.2⟩

/-! ## The click handler, branch by branch -/

theorem handleSelectionClick_eq (m : ParkingManager) (mx my : Int) (now : ℚ) :
    m.handleSelectionClick mx my now =
      if (m.optionBox 0).contains mx my = true then
        (true, (m.parkSelected VehicleType.CAR now).closeMenu)
      else if (m.optionBox 1).contains mx my = true then
        (true, (m.parkSelected VehicleType.BIKE now).closeMenu)
      else if (m.optionBox 2).contains mx my = true then
        (true, (m.parkSelected VehicleType.TRUCK now).closeMenu)
      else (false, m) := by
  unfold ParkingManager.handleSelectionClick
  rw [selectionLoop_cons, selectionLoop_cons, selectionLoop_cons]
  rfl

theorem handleConfirmClick_eq (m : ParkingManager) (mx my : Int) (now : ℚ) :
    m.handleConfirmClick mx my now =
      if m.confirmSlot < 0 ∨ m.confirmSlot ≥ (m.slots.length : Int) then (true, m.closeConfirm)
      else if m.confirmYesRect.contains mx my = true then (true, m.removeConfirmed now)
      else if m.confirmNoRect.contains mx my = true then (true, m.closeConfirm)
      else (false, m) := by
  unfold ParkingManager.handleConfirmClick ParkingManager.removeConfirmed
  split_ifs
  · rfl
  · cases hs : m.slots[m.confirmSlot.toNat]? <;> rfl
  · rfl
  · rfl

theorem onMouseClick_eq (m : ParkingManager) (mx my button state : Int) (now : ℚ) :
    m.onMouseClick mx my button state now =
      if button ≠ GLUT_LEFT_BUTTON ∨ state ≠ GLUT_DOWN then m
      else if m.showConfirm = true then
        if m.confirmSlot < 0 ∨ m.confirmSlot ≥ (m.slots.length : Int) then m.closeConfirm
        else if m.confirmYesRect.contains mx my = true then m.removeConfirmed now
        else m.closeConfirm
      else if m.showSelectionMenu = true then
        if (m.optionBox 0).contains mx my = true then
          (m.parkSelected VehicleType.CAR now).closeMenu
        else if (m.optionBox 1).contains mx my = true then
          (m.parkSelected VehicleType.BIKE now).closeMenu
        else if (m.optionBox 2).contains mx my = true then
          (m.parkSelected VehicleType.TRUCK now).closeMenu
        else m.closeMenu
      else ParkingManager.onMouseClick.scan m mx my m.slots 0 := by
  unfold ParkingManager.onMouseClick
  rw [handleConfirmClick_eq, handleSelectionClick_eq]
  split_ifs <;> rfl

/-! ## Clicks while the selection menu is shown -/

theorem parkSelected_of_empty (m : ParkingManager) (c : VehicleType) (now : ℚ) (i : Nat)
    (s : Slot) (hc : c ≠ VehicleType.NONE) (hsel : m.selectedSlot = (i : Int))
    (hs : m.slots[i]? = some s) (hp : s.parked = false) :
    (m.parkSelected c now).slots
        = m.slots.set i (s.park (mapIndex m.vehicles c Vehicle.none).1 now) ∧
      (m.parkSelected c now).showConfirm = m.showConfirm := by
  have hlen : i < m.slots.length := (List.getElem?_eq_some.mp hs).1
  have hr : (i : Int) < (m.slots.length : Int) := by exact_mod_cast hlen
  unfold ParkingManager.parkSelected
  simp [hsel, hs, hp, hc, hr]

theorem mapIndex_of_present {κ α : Type} [DecidableEq κ] (l : List (κ × α)) (k : κ)
    (d v : α) (h : mapAt l k = some v) : mapIndex l k d = (v, l) := by
  simp [mapIndex, h]

theorem optionBox_contains (m : ParkingManager) (k mx my : Int) :
    (m.optionBox k).contains mx my = true ↔
      (m.menuX + 104 * k ≤ mx ∧ mx ≤ m.menuX + 104 * k + 92 ∧ m.menuY ≤ my
        ∧ my ≤ m.menuY + 120) := by
  simp only [ParkingManager.optionBox, Rect.contains, Bool.and_eq_true, decide_eq_true_eq,
    ge_iff_le]
  constructor
  · rintro ⟨⟨⟨h1, h2⟩, h3⟩, h4⟩
    refine ⟨by linarith, by linarith, h3, h4⟩
  · rintro ⟨h1, h2, h3, h4⟩
    refine ⟨⟨⟨by linarith, by linarith⟩, h3⟩, h4⟩

theorem closeMenu_fields (m : ParkingManager) :
    m.closeMenu.slots = m.slots ∧ m.closeMenu.showSelectionMenu = false ∧
      m.closeMenu.selectedSlot = -1 ∧ m.closeMenu.showConfirm = m.showConfirm :=
  ⟨rfl, rfl, rfl, rfl⟩

theorem parkSelected_showConfirm (m : ParkingManager) (c : VehicleType) (now : ℚ) :
    (m.parkSelected c now).showConfirm = m.showConfirm := by
  unfold ParkingManager.parkSelected
  split_ifs
  · split
    · split_ifs <;> rfl
    · rfl
  · rfl

/-- C6: while the selection menu is shown for an empty slot `i`, a left button press
always ends in the idle mode; at a point of the option box `k` (0 Car, 1 Bike, 2 Truck)
it parks the registered vehicle of that type in slot `i` with the current clock reading
and no overstay flag, changing no other slot; at any other point no slot changes. -/
theorem selection_click_parks_or_dismisses (m : ParkingManager) (mx my : Int) (now : ℚ)
    (i : Nat) (s : Slot)
    (hmenu : m.showSelectionMenu = true) (hconf : m.showConfirm = false)
    (hsel : m.selectedSlot = (i : Int)) (hs : m.slots[i]? = some s)
    (hempty : s.parked = false) (hveh : VehiclesLoaded m) :
    ((m.onMouseClick mx my GLUT_LEFT_BUTTON GLUT_DOWN now).showSelectionMenu = false ∧
      (m.onMouseClick mx my GLUT_LEFT_BUTTON GLUT_DOWN now).selectedSlot = -1 ∧
      (m.onMouseClick mx my GLUT_LEFT_BUTTON GLUT_DOWN now).showConfirm = false) ∧
    (∀ k : Int, (k = 0 ∨ k = 1 ∨ k = 2) →
      m.menuX + 104 * k ≤ mx → mx ≤ m.menuX + 104 * k + 92 →
      m.menuY ≤ my → my ≤ m.menuY + 120 →
      ∃ v : Vehicle, mapAt m.vehicles v.type = some v ∧
        (k = 0 → v.type = VehicleType.CAR) ∧ (k = 1 → v.type = VehicleType.BIKE) ∧
        (k = 2 → v.type = VehicleType.TRUCK) ∧
        (m.onMouseClick mx my GLUT_LEFT_BUTTON GLUT_DOWN now).slots
          = m.slots.set i (s.park v now) ∧
        (m.onMouseClick mx my GLUT_LEFT_BUTTON GLUT_DOWN now).slots[i]? = some (s.park v now) ∧
        (s.park v now).parked = true ∧ (s.park v now).vehicle = v ∧
        (s.park v now).overstay = false ∧ (s.park v now).start_time = now ∧
        (∀ j : Nat, j ≠ i →
          (m.onMouseClick mx my GLUT_LEFT_BUTTON GLUT_DOWN now).slots[j]? = m.slots[j]?)) ∧
    ((∀ k : Int, (k = 0 ∨ k = 1 ∨ k = 2) →
        ¬ (m.menuX + 104 * k ≤ mx ∧ mx ≤ m.menuX + 104 * k + 92 ∧ m.menuY ≤ my
            ∧ my ≤ m.menuY + 120)) →
      (m.onMouseClick mx my GLUT_LEFT_BUTTON GLUT_DOWN now).slots = m.slots) := by
  have hlen : i < m.slots.length := (List.getElem?_eq_some.mp hs).1
  have key : m.onMouseClick mx my GLUT_LEFT_BUTTON GLUT_DOWN now =
      if (m.optionBox 0).contains mx my = true then
        (m.parkSelected VehicleType.CAR now).closeMenu
      else if (m.optionBox 1).contains mx my = true then
        (m.parkSelected VehicleType.BIKE now).closeMenu
      else if (m.optionBox 2).contains mx my = true then
        (m.parkSelected VehicleType.TRUCK now).closeMenu
      else m.closeMenu := by
    rw [onMouseClick_eq]
    simp [hmenu, hconf]
  obtain ⟨hcar, hbike, htruck⟩ := hveh
  obtain ⟨vc, hvc, hvct⟩ := Option.map_eq_some'.mp hcar
  obtain ⟨vb, hvb, hvbt⟩ := Option.map_eq_some'.mp hbike
  obtain ⟨vt, hvt, hvtt⟩ := Option.map_eq_some'.mp htruck
  have pc := (parkSelected_of_empty m VehicleType.CAR now i s (by decide) hsel hs hempty).1
  have pb := (parkSelected_of_empty m VehicleType.BIKE now i s (by decide) hsel hs hempty).1
  have pt := (parkSelected_of_empty m VehicleType.TRUCK now i s (by decide) hsel hs hempty).1
  rw [mapIndex_of_present _ _ _ vc hvc] at pc
  rw [mapIndex_of_present _ _ _ vb hvb] at pb
  rw [mapIndex_of_present _ _ _ vt hvt] at pt
  have b0 := optionBox_contains m 0 mx my
  have b1 := optionBox_contains m 1 mx my
  have b2 := optionBox_contains m 2 mx my
  refine ⟨?_, ?_, ?_⟩
  · rw [key]
    split_ifs <;>
      exact ⟨rfl, rfl, by
        simp only [ParkingManager.closeMenu, parkSelected_showConfirm, hconf]⟩
  · intro k hk hx1 hx2 hy1 hy2
    have fin : ∀ v : Vehicle, (m.slots.set i (s.park v now))[i]? = some (s.park v now) ∧
        (s.park v now).parked = true ∧ (s.park v now).vehicle = v ∧
        (s.park v now).overstay = false ∧ (s.park v now).start_time = now ∧
        (∀ j : Nat, j ≠ i → (m.slots.set i (s.park v now))[j]? = m.slots[j]?) := by
      intro v
      refine ⟨by simp [List.getElem?_set, hlen], rfl, rfl, rfl, rfl, ?_⟩
      intro j hj
      exact List.getElem?_set_ne (Ne.symm hj)
    rcases hk with rfl | rfl | rfl
    · have c0 : (m.optionBox 0).contains mx my = true := b0.mpr ⟨hx1, hx2, hy1, hy2⟩
      have hres : (m.onMouseClick mx my GLUT_LEFT_BUTTON GLUT_DOWN now).slots
          = m.slots.set i (s.park vc now) := by
        rw [key, if_pos c0]
        exact pc
      refine ⟨vc, by rw [hvct]; exact hvc, fun _ => hvct, fun h => absurd h (by decide),
        fun h => absurd h (by decide), hres, ?_⟩
      rw [hres]
      exact fin vc
    · have c0 : ¬ (m.optionBox 0).contains mx my = true := by
        rw [b0]
        omega
      have c1 : (m.optionBox 1).contains mx my = true := b1.mpr ⟨hx1, hx2, hy1, hy2⟩
      have hres : (m.onMouseClick mx my GLUT_LEFT_BUTTON GLUT_DOWN now).slots
          = m.slots.set i (s.park vb now) := by
        rw [key, if_neg c0, if_pos c1]
        exact pb
      refine ⟨vb, by rw [hvbt]; exact hvb, fun h => absurd h (by decide), fun _ => hvbt,
        fun h => absurd h (by decide), hres, ?_⟩
      rw [hres]
      exact fin vb
    · have c0 : ¬ (m.optionBox 0).contains mx my = true := by
        rw [b0]
        omega
      have c1 : ¬ (m.optionBox 1).contains mx my = true := by
        rw [b1]
        omega
      have c2 : (m.optionBox 2).contains mx my = true := b2.mpr ⟨hx1, hx2, hy1, hy2⟩
      have hres : (m.onMouseClick mx my GLUT_LEFT_BUTTON GLUT_DOWN now).slots
          = m.slots.set i (s.park vt now) := by
        rw [key, if_neg c0, if_neg c1, if_pos c2]
        exact pt
      refine ⟨vt, by rw [hvtt]; exact hvt, fun h => absurd h (by decide),
        fun h => absurd h (by decide), fun _ => hvtt, hres, ?_⟩
      rw [hres]
      exact fin vt
  · intro hout
    have c0 : ¬ (m.optionBox 0).contains mx my = true := by
      rw [b0]
      exact hout 0 (Or.inl rfl)
    have c1 : ¬ (m.optionBox 1).contains mx my = true := by
      rw [b1]
      exact hout 1 (Or.inr (Or.inl rfl))
    have c2 : ¬ (m.optionBox 2).contains mx my = true := by
      rw [b2]
      exact hout 2 (Or.inr (Or.inr rfl))
    rw [key, if_neg c0, if_neg c1, if_neg c2]
    rfl

/-! ## Clicks while the removal confirmation is shown -/

theorem renderConfirmDialog_rects (m : ParkingManager) :
    m.renderConfirmDialog.confirmYesRect = { x := 350, y := 459, w := 130, h := 48 } ∧
      m.renderConfirmDialog.confirmNoRect = { x := 520, y := 459, w := 130, h := 48 } :=
  ⟨rfl, rfl⟩

theorem removeConfirmed_of_slot (m : ParkingManager) (now : ℚ) (i : Nat) (s : Slot)
    (hsel : m.confirmSlot = (i : Int)) (hs : m.slots[i]? = some s) :
    (m.removeConfirmed now).slots = m.slots.set i (s.removeAndGetBill now).2 ∧
      (m.removeConfirmed now).totalCollected = m.totalCollected + (s.removeAndGetBill now).1 ∧
      (m.removeConfirmed now).showConfirm = false ∧
      (m.removeConfirmed now).confirmSlot = -1 ∧
      (m.removeConfirmed now).showSelectionMenu = m.showSelectionMenu := by
  unfold ParkingManager.removeConfirmed
  simp [hsel, hs]

/-- C7: while the removal confirmation is shown for a slot `i` (occupied or not), with the Yes and
No rectangles that `renderConfirmDialog` assigns (x 350..480 and x 520..650, y 459..507),
a left button press always ends in the idle mode; at a point of the Yes rectangle it
empties slot `i` through `removeAndGetBill`, adds the bill to the revenue and changes no
other slot; at any other point, the No rectangle included, no slot changes. -/
theorem confirm_click_removes_or_dismisses (m : ParkingManager) (mx my : Int) (now : ℚ)
    (i : Nat) (s : Slot)
    (hconf : m.showConfirm = true) (hmenu : m.showSelectionMenu = false)
    (hsel : m.confirmSlot = (i : Int)) (hs : m.slots[i]? = some s)
    (hyes : m.confirmYesRect = m.renderConfirmDialog.confirmYesRect)
    (hno : m.confirmNoRect = m.renderConfirmDialog.confirmNoRect) :
    (m.confirmYesRect = { x := 350, y := 459, w := 130, h := 48 } ∧
      m.confirmNoRect = { x := 520, y := 459, w := 130, h := 48 }) ∧
    ((m.onMouseClick mx my GLUT_LEFT_BUTTON GLUT_DOWN now).showConfirm = false ∧
      (m.onMouseClick mx my GLUT_LEFT_BUTTON GLUT_DOWN now).confirmSlot = -1 ∧
      (m.onMouseClick mx my GLUT_LEFT_BUTTON GLUT_DOWN now).showSelectionMenu = false) ∧
    (350 ≤ mx → mx ≤ 480 → 459 ≤ my → my ≤ 507 →
      (m.onMouseClick mx my GLUT_LEFT_BUTTON GLUT_DOWN now).slots
        = m.slots.set i (s.removeAndGetBill now).2 ∧
      (m.onMouseClick mx my GLUT_LEFT_BUTTON GLUT_DOWN now).slots[i]?
        = some (s.removeAndGetBill now).2 ∧
      (s.removeAndGetBill now).2.parked = false ∧
      (∀ j : Nat, j ≠ i →
        (m.onMouseClick mx my GLUT_LEFT_BUTTON GLUT_DOWN now).slots[j]? = m.slots[j]?) ∧
      (m.onMouseClick mx my GLUT_LEFT_BUTTON GLUT_DOWN now).totalCollected
        = m.totalCollected + s.computeBill now) ∧
    (¬ (350 ≤ mx ∧ mx ≤ 480 ∧ 459 ≤ my ∧ my ≤ 507) →
      (m.onMouseClick mx my GLUT_LEFT_BUTTON GLUT_DOWN now).slots = m.slots ∧
      (m.onMouseClick mx my GLUT_LEFT_BUTTON GLUT_DOWN now).slots[i]? = some s ∧
      (m.onMouseClick mx my GLUT_LEFT_BUTTON GLUT_DOWN now).totalCollected
        = m.totalCollected) := by
  have hlen : i < m.slots.length := (List.getElem?_eq_some.mp hs).1
  have hr : ¬ (m.confirmSlot < 0 ∨ m.confirmSlot ≥ (m.slots.length : Int)) := by
    rw [hsel]
    have : (i : Int) < (m.slots.length : Int) := by exact_mod_cast hlen
    omega
  have key : m.onMouseClick mx my GLUT_LEFT_BUTTON GLUT_DOWN now =
      if m.confirmYesRect.contains mx my = true then m.removeConfirmed now
      else m.closeConfirm := by
    rw [onMouseClick_eq]
    simp [hconf, hr]
  rw [(renderConfirmDialog_rects m).1] at hyes
  rw [(renderConfirmDialog_rects m).2] at hno
  have hy : m.confirmYesRect.contains mx my = true ↔
      (350 ≤ mx ∧ mx ≤ 480 ∧ 459 ≤ my ∧ my ≤ 507) := by
    rw [hyes]
    simp only [Rect.contains, Bool.and_eq_true, decide_eq_true_eq, ge_iff_le]
    omega
  obtain ⟨r1, r2, r3, r4, r5⟩ := removeConfirmed_of_slot m now i s hsel hs
  refine ⟨⟨hyes, hno⟩, ?_, ?_, ?_⟩
  · rw [key]
    split_ifs
    · exact ⟨r3, r4, by rw [r5, hmenu]⟩
    · exact ⟨rfl, rfl, hmenu⟩
  · intro hx1 hx2 hy1 hy2
    have c : m.confirmYesRect.contains mx my = true := hy.mpr ⟨hx1, hx2, hy1, hy2⟩
    rw [key, if_pos c, r1, r2]
    refine ⟨rfl, by simp [List.getElem?_set, hlen], rfl, ?_, rfl⟩
    intro j hj
    exact List.getElem?_set_ne (Ne.symm hj)
  · intro hout
    have c : ¬ m.confirmYesRect.contains mx my = true := fun h => hout (hy.mp h)
    rw [key, if_neg c]
    exact ⟨rfl, hs, rfl⟩

/-! ## What one event does to the two flags and to a slot -/

theorem hit_fields (m : ParkingManager) (s : Slot) (i : Nat) :
    (m.hit s i).slots = m.slots ∧
      (((m.hit s i).showSelectionMenu = true ∧ (m.hit s i).showConfirm = m.showConfirm) ∨
       ((m.hit s i).showSelectionMenu = m.showSelectionMenu ∧ (m.hit s i).showConfirm = true)) := by
  by_cases hp : s.parked = true
  · simp [ParkingManager.hit, hp]
  · simp [ParkingManager.hit, hp]

theorem clickScan_cases (m : ParkingManager) (mx my : Int) (l : List Slot) (k : Nat) :
    ParkingManager.onMouseClick.scan m mx my l k = m ∨
      ∃ (s : Slot) (i : Nat), ParkingManager.onMouseClick.scan m mx my l k = m.hit s i := by
  induction l generalizing k with
  | nil => exact Or.inl rfl
  | cons a rest ih =>
    rw [clickScan_cons]
    split_ifs
    · exact Or.inr ⟨a, k, rfl⟩
    · exact ih (k + 1)

theorem render_frame (m : ParkingManager) (now : ℚ) :
    (m.render now).slots = m.slots ∧
      (m.render now).showSelectionMenu = m.showSelectionMenu ∧
      (m.render now).showConfirm = m.showConfirm := by
  unfold ParkingManager.render ParkingManager.renderTransientMessage
    ParkingManager.renderConfirmDialog ParkingManager.renderSelectionMenu
  refine ⟨?_, ?_, ?_⟩ <;> (simp only []; repeat' split) <;> rfl

theorem parkSelected_slots (m : ParkingManager) (c : VehicleType) (now : ℚ) :
    (m.parkSelected c now).slots = m.slots ∨
      ∃ (n : Nat) (s : Slot), m.slots[n]? = some s ∧ s.parked = false ∧
        (m.parkSelected c now).slots
          = m.slots.set n (s.park (mapIndex m.vehicles c Vehicle.none).1 now) := by
  unfold ParkingManager.parkSelected
  split_ifs
  · cases hs : m.slots[m.selectedSlot.toNat]? with
    | none => exact Or.inl rfl
    | some s =>
      by_cases hp : s.parked = true
      · left
        simp [hp]
      · right
        have hp1 : s.parked = false := by simpa using hp
        exact ⟨m.selectedSlot.toNat, s, hs, hp1, by simp [hp1]⟩
  · exact Or.inl rfl

theorem parkSelected_flags (m : ParkingManager) (c : VehicleType) (now : ℚ) :
    (m.parkSelected c now).showSelectionMenu = m.showSelectionMenu ∧
      (m.parkSelected c now).showConfirm = m.showConfirm := by
  unfold ParkingManager.parkSelected
  split_ifs
  · split
    · split_ifs <;> exact ⟨rfl, rfl⟩
    · exact ⟨rfl, rfl⟩
  · exact ⟨rfl, rfl⟩

theorem removeConfirmed_flags (m : ParkingManager) (now : ℚ) :
    (m.removeConfirmed now).showSelectionMenu = m.showSelectionMenu ∧
      ((m.removeConfirmed now).showConfirm = false ∨
        (m.removeConfirmed now).showConfirm = m.showConfirm) := by
  unfold ParkingManager.removeConfirmed
  split
  · exact ⟨rfl, Or.inl rfl⟩
  · exact ⟨rfl, Or.inr rfl⟩

theorem step_flags (m : ParkingManager) (e : Event)
    (h : ¬ (m.showSelectionMenu = true ∧ m.showConfirm = true)) :
    ¬ ((step m e).showSelectionMenu = true ∧ (step m e).showConfirm = true) := by
  cases e with
  | move mx my => exact h
  | update now => exact h
  | render now =>
    obtain ⟨-, h1, h2⟩ := render_frame m now
    simp only [step, h1, h2]
    exact h
  | click mx my button state now =>
    simp only [step]
    rw [onMouseClick_eq]
    split_ifs with hb hc hr hy hm b0 b1 b2
    · exact h
    · simp [ParkingManager.closeConfirm]
    · obtain ⟨f1, f2⟩ := removeConfirmed_flags m now
      rcases f2 with f2 | f2
      · simp [f2]
      · rw [f1, f2]
        exact h
    · simp [ParkingManager.closeConfirm]
    · simp [ParkingManager.closeMenu]
    · simp [ParkingManager.closeMenu]
    · simp [ParkingManager.closeMenu]
    · simp [ParkingManager.closeMenu]
    · rcases clickScan_cases m mx my m.slots 0 with h0 | ⟨s, i, h0⟩
      · rw [h0]
        exact h
      · rw [h0]
        obtain ⟨-, f | f⟩ := hit_fields m s i
        · rw [f.2]
          simp [hc]
        · rw [f.1]
          simp [hm]

theorem reachable_flags (m : ParkingManager) (h : Reachable m) :
    ¬ (m.showSelectionMenu = true ∧ m.showConfirm = true) := by
  induction h with
  | new yes no => simp [ParkingManager.new]
  | setTextures t _ hs ih =>
    obtain ⟨-, -, -, h1, h2⟩ := setTextures_total _ _ t hs
    rw [h1, h2]
    exact ih
  | @step m0 e _ ih => exact step_flags m0 e ih

theorem run_reachable (m : ParkingManager) (es : List Event) (h : Reachable m) :
    Reachable (run m es) := by
  induction es generalizing m with
  | nil => exact h
  | cons e es ih => exact ih (step m e) (Reachable.step e h)

/-- C8: in every reachable state the selection menu and the removal confirmation are not
both shown; in particular after every sequence of clicks (any button, any state, any
point), pointer moves, refresh ticks and redraws applied to the constructor's state. -/
theorem never_both_menu_and_confirm (m : ParkingManager) (hreach : Reachable m) :
    ¬ (m.showSelectionMenu = true ∧ m.showConfirm = true) ∧
    (∀ (yes no : Rect) (es : List Event),
      ¬ ((run (ParkingManager.new yes no) es).showSelectionMenu = true ∧
          (run (ParkingManager.new yes no) es).showConfirm = true)) ∧
    (∀ e : Event, ¬ ((step m e).showSelectionMenu = true ∧ (step m e).showConfirm = true)) :=
  ⟨reachable_flags m hreach,
    fun yes no es => reachable_flags _ (run_reachable _ es (Reachable.new yes no)),
    fun e => step_flags m e (reachable_flags m hreach)⟩

/-! ## What one event does to a slot -/

theorem set_getElem_cases (l : List Slot) (n i : Nat) (a s : Slot) (hs : l[i]? = some s) :
    (l.set n a)[i]? = some (if n = i then a else s) := by
  have hlen : i < l.length := (List.getElem?_eq_some.mp hs).1
  rw [List.getElem?_set]
  by_cases h : n = i
  · subst h
    simp [hlen]
  · simp [h, hs]

theorem removalOf_click (m : ParkingManager) (mx my : Int) (now : ℚ) (s : Slot)
    (hc : m.showConfirm = true)
    (hr : ¬ (m.confirmSlot < 0 ∨ m.confirmSlot ≥ (m.slots.length : Int)))
    (hy : m.confirmYesRect.contains mx my = true)
    (hs : m.slots[m.confirmSlot.toNat]? = some s) :
    removalOf m (Event.click mx my GLUT_LEFT_BUTTON GLUT_DOWN now)
      = some (m.confirmSlot.toNat, (s.removeAndGetBill now).1) := by
  have h0 : 0 ≤ m.confirmSlot := by omega
  have h1 : m.confirmSlot < (m.slots.length : Int) := by omega
  simp [removalOf, hc, h0, h1, hy, hs]

/-- The slot of index `i` after an event: unchanged, refreshed, parked on (only when
empty), or emptied by the removal the event makes on slot `i`. -/
theorem step_slot (m : ParkingManager) (e : Event) (i : Nat) (s : Slot)
    (hs : m.slots[i]? = some s) :
    (step m e).slots[i]? = some s ∨
    (∃ now : ℚ, e = Event.update now ∧ (step m e).slots[i]? = some (s.refresh now)) ∨
    (∃ (v : Vehicle) (now : ℚ), s.parked = false ∧
      (step m e).slots[i]? = some (s.park v now)) ∨
    (∃ (now bill : ℚ), removalOf m e = some (i, bill) ∧
      (step m e).slots[i]? = some (s.removeAndGetBill now).2) := by
  cases e with
  | move mx my => exact Or.inl hs
  | update now =>
    right
    left
    exact ⟨now, rfl, by simp [step, ParkingManager.update, List.getElem?_map, hs]⟩
  | render now =>
    left
    simp only [step, (render_frame m now).1]
    exact hs
  | click mx my button state now =>
    simp only [step]
    rw [onMouseClick_eq]
    have park_case : ∀ c : VehicleType,
        (m.parkSelected c now).closeMenu.slots[i]? = some s ∨
        (∃ (v : Vehicle) (t0 : ℚ), s.parked = false ∧
          (m.parkSelected c now).closeMenu.slots[i]? = some (s.park v t0)) := by
      intro c
      rcases parkSelected_slots m c now with h | ⟨n, t, ht, hp, h⟩
      · left
        rw [(closeMenu_fields _).1, h]
        exact hs
      · rw [(closeMenu_fields _).1, h, set_getElem_cases m.slots n i _ s hs]
        by_cases hn : n = i
        · subst hn
          rw [hs] at ht
          cases ht
          right
          exact ⟨(mapIndex m.vehicles c Vehicle.none).1, now, hp, by simp⟩
        · left
          simp [hn]
    split_ifs with hb hc hr hy hm b0 b1 b2
    · exact Or.inl hs
    · exact Or.inl hs
    · cases ht : m.slots[m.confirmSlot.toNat]? with
      | none =>
        left
        simp only [ParkingManager.removeConfirmed, ht]
        exact hs
      | some t =>
        have hb1 : button = GLUT_LEFT_BUTTON := by
          by_contra hne
          exact hb (Or.inl hne)
        have hb2 : state = GLUT_DOWN := by
          by_contra hne
          exact hb (Or.inr hne)
        subst hb1
        subst hb2
        have hrem := removalOf_click m mx my now t hc hr hy ht
        have hsl : (m.removeConfirmed now).slots
            = m.slots.set m.confirmSlot.toNat (t.removeAndGetBill now).2 := by
          simp [ParkingManager.removeConfirmed, ht]
        rw [hsl, set_getElem_cases m.slots _ i _ s hs]
        by_cases hn : m.confirmSlot.toNat = i
        · rw [hn] at ht hrem
          rw [hs] at ht
          cases ht
          right
          right
          right
          exact ⟨now, _, hrem, by simp [hn]⟩
        · left
          simp [hn]
    · exact Or.inl hs
    · rcases park_case VehicleType.CAR with h | h
      · exact Or.inl h
      · exact Or.inr (Or.inr (Or.inl h))
    · rcases park_case VehicleType.BIKE with h | h
      · exact Or.inl h
      · exact Or.inr (Or.inr (Or.inl h))
    · rcases park_case VehicleType.TRUCK with h | h
      · exact Or.inl h
      · exact Or.inr (Or.inr (Or.inl h))
    · exact Or.inl hs
    · left
      rcases clickScan_cases m mx my m.slots 0 with h0 | ⟨t, k, h0⟩
      · rw [h0]
        exact hs
      · rw [h0, (hit_fields m t k).1]
        exact hs

theorem step_slots_length (m : ParkingManager) (e : Event) :
    (step m e).slots.length = m.slots.length := by
  cases e with
  | move mx my => rfl
  | update now => simp [step, ParkingManager.update]
  | render now => simp only [step, (render_frame m now).1]
  | click mx my button state now =>
    simp only [step]
    rw [onMouseClick_eq]
    have park_case : ∀ c : VehicleType,
        (m.parkSelected c now).closeMenu.slots.length = m.slots.length := by
      intro c
      rcases parkSelected_slots m c now with h | ⟨n, t, -, -, h⟩
      · rw [(closeMenu_fields _).1, h]
      · rw [(closeMenu_fields _).1, h, List.length_set]
    split_ifs
    · rfl
    · rfl
    · unfold ParkingManager.removeConfirmed
      split
      · simp
      · rfl
    · rfl
    · exact park_case _
    · exact park_case _
    · exact park_case _
    · rfl
    · rcases clickScan_cases m mx my m.slots 0 with h0 | ⟨t, k, h0⟩
      · rw [h0]
      · rw [h0, (hit_fields m t k).1]

/-! ## The overstay flag -/

theorem refresh_eq (s : Slot) (now : ℚ) :
    s.refresh now =
      if s.parked = true ∧ s.overstay = false ∧ 30 < s.elapsedSeconds now then
        { s with overstay := true }
      else s := by
  unfold Slot.refresh
  by_cases hp : s.parked = true <;> by_cases ho : s.overstay = true <;>
    by_cases he : 30 < s.elapsedSeconds now <;>
    simp [hp, ho, he, MAX_SECONDS]

theorem refresh_overstay (s : Slot) (now : ℚ) :
    (s.refresh now).parked = s.parked ∧
      ((s.refresh now).overstay = true ↔
        (s.overstay = true ∨ (s.parked = true ∧ s.elapsedSeconds now > 30))) := by
  rw [refresh_eq]
  split_ifs with h
  · refine ⟨rfl, ?_⟩
    simp only [true_iff]
    exact Or.inr ⟨h.1, h.2.2⟩
  · refine ⟨rfl, ?_⟩
    constructor
    · intro ho
      exact Or.inl ho
    · rintro (ho | ⟨hp, he⟩)
      · exact ho
      · by_contra hno
        exact h ⟨hp, by simpa using hno, he⟩

theorem refresh_of_overstay (s : Slot) (now : ℚ) (h : s.overstay = true) :
    s.refresh now = s := by
  simp [Slot.refresh, h]

theorem refresh_fields (s : Slot) (now : ℚ) :
    (s.refresh now).rect = s.rect ∧ (s.refresh now).vehicle = s.vehicle ∧
      (s.refresh now).start_time = s.start_time := by
  rw [refresh_eq]
  split_ifs <;> exact ⟨rfl, rfl, rfl⟩

theorem apply_keeps_invariant (s : Slot) (op : SlotOp)
    (h : s.overstay = true → s.parked = true) :
    (s.apply op).overstay = true → (s.apply op).parked = true := by
  cases op with
  | park v now =>
    intro _
    rfl
  | removeAndGetBill now =>
    intro ho
    simp [Slot.apply, Slot.removeAndGetBill] at ho
  | refresh now =>
    intro ho
    obtain ⟨h1, h2⟩ := refresh_overstay s now
    simp only [Slot.apply] at ho ⊢
    rw [h1]
    rcases h2.mp ho with h3 | h3
    · exact h h3
    · exact h3.1

theorem foldl_apply_invariant (ops : List SlotOp) (s : Slot)
    (h : s.overstay = true → s.parked = true) :
    (ops.foldl Slot.apply s).overstay = true → (ops.foldl Slot.apply s).parked = true := by
  induction ops generalizing s with
  | nil => exact h
  | cons op ops ih => exact ih (s.apply op) (apply_keeps_invariant s op h)

theorem initSlots_overstay (s : Slot) (h : s ∈ initSlots) : s.overstay = false := by
  have e : initSlots = [Slot.new 30 130 280 280, Slot.new 360 130 280 280,
      Slot.new 690 130 280 280, Slot.new 30 490 280 280, Slot.new 360 490 280 280,
      Slot.new 690 490 280 280] := by rfl
  rw [e] at h
  simp only [List.mem_cons, List.mem_singleton, List.not_mem_nil, or_false] at h
  rcases h with rfl | rfl | rfl | rfl | rfl | rfl <;> rfl

theorem step_slot_back (m : ParkingManager) (e : Event) (i : Nat) (s1 : Slot)
    (h : (step m e).slots[i]? = some s1) : ∃ s : Slot, m.slots[i]? = some s := by
  have hlen : i < (step m e).slots.length := (List.getElem?_eq_some.mp h).1
  rw [step_slots_length] at hlen
  exact ⟨m.slots[i], List.getElem?_eq_some.mpr ⟨hlen, rfl⟩⟩

theorem step_keeps_invariant (m : ParkingManager) (e : Event)
    (h : ∀ (i : Nat) (s : Slot), m.slots[i]? = some s → s.overstay = true → s.parked = true) :
    ∀ (i : Nat) (s : Slot), (step m e).slots[i]? = some s → s.overstay = true →
      s.parked = true := by
  intro i s1 hs1 ho
  obtain ⟨s, hs⟩ := step_slot_back m e i s1 hs1
  rcases step_slot m e i s hs with h1 | ⟨now, -, h1⟩ | ⟨v, now, -, h1⟩ | ⟨now, bill, -, h1⟩
  · rw [hs1] at h1
    cases h1
    exact h i s1 hs ho
  · rw [hs1] at h1
    cases h1
    exact apply_keeps_invariant s (SlotOp.refresh now) (h i s hs) ho
  · rw [hs1] at h1
    cases h1
    rfl
  · rw [hs1] at h1
    cases h1
    simp [Slot.removeAndGetBill] at ho

theorem reachable_invariant (m : ParkingManager) (hreach : Reachable m) :
    ∀ (i : Nat) (s : Slot), m.slots[i]? = some s → s.overstay = true → s.parked = true := by
  induction hreach with
  | new yes no =>
    intro i s hs ho
    have hmem : s ∈ initSlots := List.getElem?_mem hs
    rw [initSlots_overstay s hmem] at ho
    cases ho
  | setTextures t _ hs ih =>
    obtain ⟨-, -, h1, -, -⟩ := setTextures_total _ _ t hs
    rw [h1]
    exact ih
  | @step m0 e _ ih => exact step_keeps_invariant m0 e ih

/-- C9: a slot with the overstay flag is occupied, in every state reached from
`Slot(x, y, w, h)` by `park`, `removeAndGetBill` and the per-slot body of `update`, and for
every slot of every reachable state of the manager. -/
theorem overstay_implies_parked (m : ParkingManager) (hreach : Reachable m) :
    (∀ s ∈ m.slots, s.overstay = true → s.parked = true) ∧
    (∀ (x y w h : Int) (ops : List SlotOp),
      (ops.foldl Slot.apply (Slot.new x y w h)).overstay = true →
        (ops.foldl Slot.apply (Slot.new x y w h)).parked = true) ∧
    (∀ (yes no : Rect) (es : List Event), ∀ s ∈ (run (ParkingManager.new yes no) es).slots,
      s.overstay = true → s.parked = true) := by
  refine ⟨?_, ?_, ?_⟩
  · intro s hs ho
    obtain ⟨i, hi⟩ := List.getElem?_of_mem hs
    exact reachable_invariant m hreach i s hi ho
  · intro x y w h ops
    apply foldl_apply_invariant
    intro ho
    cases ho
  · intro yes no es s hs ho
    obtain ⟨i, hi⟩ := List.getElem?_of_mem hs
    exact reachable_invariant _ (run_reachable _ es (Reachable.new yes no)) i s hi ho

theorem step_keeps_overstay (m : ParkingManager) (e : Event) (i : Nat) (s : Slot)
    (hs : m.slots[i]? = some s) (ho : s.overstay = true) (hp : s.parked = true)
    (hno : ∀ bill : ℚ, removalOf m e ≠ some (i, bill)) :
    (step m e).slots[i]? = some s := by
  rcases step_slot m e i s hs with h1 | ⟨now, -, h1⟩ | ⟨v, now, hf, -⟩ | ⟨now, bill, hr, -⟩
  · exact h1
  · rw [h1, refresh_of_overstay s now ho]
  · rw [hp] at hf
    cases hf
  · exact absurd hr (hno bill)

theorem run_keeps_overstay (es : List Event) :
    ∀ (m : ParkingManager) (i : Nat) (s : Slot), m.slots[i]? = some s →
      s.overstay = true → s.parked = true →
      i ∉ (removals m es).map Prod.fst → (run m es).slots[i]? = some s := by
  induction es with
  | nil =>
    intro m i s hs _ _ _
    exact hs
  | cons e es ih =>
    intro m i s hs ho hp hno
    have hstep : (step m e).slots[i]? = some s := by
      apply step_keeps_overstay m e i s hs ho hp
      intro bill hr
      apply hno
      simp [removals, hr]
    have hrest : i ∉ (removals (step m e) es).map Prod.fst := by
      intro hmem
      apply hno
      simp only [removals]
      cases hr : removalOf m e with
      | none => simpa [hr] using hmem
      | some r =>
        simp only [hr, List.map_cons, List.mem_cons]
        exact Or.inr hmem
    exact ih (step m e) i s hstep ho hp hrest

theorem step_of_removal (m : ParkingManager) (e : Event) (i : Nat) (bill : ℚ)
    (h : removalOf m e = some (i, bill)) (s : Slot) (hs : m.slots[i]? = some s) :
    ∃ now : ℚ, (step m e).slots[i]? = some (s.removeAndGetBill now).2 ∧
      bill = s.computeBill now := by
  cases e with
  | move mx my => simp [removalOf] at h
  | update now => simp [removalOf] at h
  | render now => simp [removalOf] at h
  | click mx my button state now =>
    simp only [removalOf] at h
    split_ifs at h with hc
    obtain ⟨hb1, hb2, hshow, h0, h1, hy⟩ := hc
    cases ht : m.slots[m.confirmSlot.toNat]? with
    | none => simp [ht] at h
    | some t =>
      simp only [ht, Option.some.injEq, Prod.mk.injEq] at h
      obtain ⟨hi, hbill⟩ := h
      rw [hi] at ht
      rw [hs] at ht
      cases ht
      have hlen : i < m.slots.length := (List.getElem?_eq_some.mp hs).1
      have hr : ¬ (m.confirmSlot < 0 ∨ m.confirmSlot ≥ (m.slots.length : Int)) := by omega
      refine ⟨now, ?_, hbill.symm⟩
      simp only [step]
      rw [onMouseClick_eq]
      have hb : ¬ (button ≠ GLUT_LEFT_BUTTON ∨ state ≠ GLUT_DOWN) := by
        rintro (hne | hne)
        · exact hne hb1
        · exact hne hb2
      rw [if_neg hb, if_pos hshow, if_neg hr, if_pos hy]
      simp [ParkingManager.removeConfirmed, hi, hs, List.getElem?_set, hlen]

/-- C10: the overstay flag is false right after `park`; an `update` on an occupied slot
keeps a set flag and otherwise sets it exactly when the elapsed time exceeds 30 s (not at
30 s exactly); a set flag survives every event and every sequence of events that makes no
`removeAndGetBill` call on that slot, with the whole slot unchanged; a removal on that
slot clears it. -/
theorem overstay_flag_lifecycle (m : ParkingManager) (hreach : Reachable m) (i : Nat)
    (s : Slot) (hs : m.slots[i]? = some s) :
    (∀ (t : Slot) (v : Vehicle) (now : ℚ), (t.park v now).overstay = false) ∧
    (∀ now : ℚ, s.parked = true →
      (m.update now).slots[i]? = some (s.refresh now) ∧
      (s.refresh now).parked = true ∧
      ((s.refresh now).overstay = true ↔ (s.overstay = true ∨ s.elapsedSeconds now > 30))) ∧
    (∀ now : ℚ, s.parked = true → s.overstay = false → s.elapsedSeconds now = 30 →
      (m.update now).slots[i]? = some s) ∧
    (s.overstay = true → ∀ e : Event, (∀ bill : ℚ, removalOf m e ≠ some (i, bill)) →
      (step m e).slots[i]? = some s) ∧
    (s.overstay = true → ∀ es : List Event, i ∉ (removals m es).map Prod.fst →
      (run m es).slots[i]? = some s) ∧
    (∀ (e : Event) (bill : ℚ), removalOf m e = some (i, bill) →
      ∃ s1 : Slot, (step m e).slots[i]? = some s1 ∧ s1.overstay = false
        ∧ s1.parked = false) ∧
    (∀ (t : Slot) (now : ℚ), (t.removeAndGetBill now).2.overstay = false) := by
  have hupd : ∀ now : ℚ, (m.update now).slots[i]? = some (s.refresh now) := by
    intro now
    simp [ParkingManager.update, List.getElem?_map, hs]
  refine ⟨fun _ _ _ => rfl, ?_, ?_, ?_, ?_, ?_, fun _ _ => rfl⟩
  · intro now hp
    obtain ⟨h1, h2⟩ := refresh_overstay s now
    refine ⟨hupd now, by rw [h1, hp], ?_⟩
    rw [h2]
    simp [hp]
  · intro now hp ho he
    rw [hupd now, refresh_eq]
    have hn : ¬ (s.parked = true ∧ s.overstay = false ∧ 30 < s.elapsedSeconds now) := by
      rintro ⟨-, -, h30⟩
      rw [he] at h30
      exact lt_irrefl _ h30
    rw [if_neg hn]
  · intro ho e hno
    exact step_keeps_overstay m e i s hs ho (reachable_invariant m hreach i s hs ho) hno
  · intro ho es hno
    exact run_keeps_overstay es m i s hs ho (reachable_invariant m hreach i s hs ho) hno
  · intro e bill hr
    obtain ⟨now, h1, -⟩ := step_of_removal m e i bill hr s hs
    exact ⟨_, h1, rfl, rfl⟩

/-! ## The vehicle table after `setTextures` -/

theorem mapAt_mapAssign {κ α : Type} [DecidableEq κ] (l : List (κ × α)) (k k1 : κ) (v : α) :
    mapAt (mapAssign l k v) k1 = if k = k1 then some v else mapAt l k1 := by
  induction l with
  | nil => simp [mapAssign, mapAt]
  | cons p rest ih =>
    obtain ⟨k0, v0⟩ := p
    by_cases h0 : k0 = k
    · subst h0
      by_cases h1 : k0 = k1
      · simp [mapAssign, mapAt, h1]
      · simp [mapAssign, mapAt, h1]
    · by_cases h1 : k0 = k1
      · subst h1
        have h2 : ¬ k = k0 := fun h => h0 h.symm
        simp [mapAssign, mapAt, h0, h2]
      · simp [mapAssign, mapAt, h0, h1, ih]

theorem setTextures_loads (m m1 : ParkingManager) (t : List (String × TextureInfo))
    (h : m.setTextures t = some m1) : VehiclesLoaded m1 := by
  unfold ParkingManager.setTextures at h
  split at h
  · cases h
    simp [VehiclesLoaded, mapAt_mapAssign]
  · cases h

theorem parkSelected_vehicles (m : ParkingManager) (c : VehicleType) (now : ℚ)
    (hc : c ≠ VehicleType.NONE) (h : VehiclesLoaded m) :
    (m.parkSelected c now).vehicles = m.vehicles := by
  obtain ⟨h1, h2, h3⟩ := h
  have hv : ∃ v, mapAt m.vehicles c = some v := by
    cases c with
    | NONE => exact absurd rfl hc
    | CAR =>
      obtain ⟨v, hv, -⟩ := Option.map_eq_some'.mp h1
      exact ⟨v, hv⟩
    | BIKE =>
      obtain ⟨v, hv, -⟩ := Option.map_eq_some'.mp h2
      exact ⟨v, hv⟩
    | TRUCK =>
      obtain ⟨v, hv, -⟩ := Option.map_eq_some'.mp h3
      exact ⟨v, hv⟩
  obtain ⟨v, hv⟩ := hv
  unfold ParkingManager.parkSelected
  split_ifs
  · split
    · split_ifs
      · simp [mapIndex_of_present _ _ _ v hv]
      · rfl
    · rfl
  · rfl

theorem step_vehicles (m : ParkingManager) (e : Event) (h : VehiclesLoaded m) :
    (step m e).vehicles = m.vehicles := by
  cases e with
  | move mx my => rfl
  | update now => rfl
  | render now =>
    simp only [step]
    unfold ParkingManager.render ParkingManager.renderTransientMessage
      ParkingManager.renderConfirmDialog ParkingManager.renderSelectionMenu
    (simp only []; repeat' split) <;> rfl
  | click mx my button state now =>
    simp only [step]
    rw [onMouseClick_eq]
    split_ifs
    · rfl
    · rfl
    · unfold ParkingManager.removeConfirmed
      split <;> rfl
    · rfl
    · exact parkSelected_vehicles m _ now (by decide) h
    · exact parkSelected_vehicles m _ now (by decide) h
    · exact parkSelected_vehicles m _ now (by decide) h
    · rfl
    · rcases clickScan_cases m mx my m.slots 0 with h0 | ⟨t, k, h0⟩
      · rw [h0]
      · rw [h0]
        unfold ParkingManager.hit
        split_ifs <;> rfl

/-- Once `setTextures` has returned, every later state has the vehicle table loaded. -/
theorem run_keeps_loaded (es : List Event) (m : ParkingManager) (h : VehiclesLoaded m) :
    VehiclesLoaded (run m es) := by
  induction es generalizing m with
  | nil => exact h
  | cons e es ih =>
    apply ih (step m e)
    unfold VehiclesLoaded
    rw [step_vehicles m e h]
    exact h

/-! ## The sample states are reachable -/

theorem booted_eq :
    (ParkingManager.new { x := 0, y := 0, w := 0, h := 0 }
      { x := 0, y := 0, w := 0, h := 0 }).setTextures sampleTextures = some booted := by
  rfl

theorem selecting_eq :
    step booted (Event.click 30 130 GLUT_LEFT_BUTTON GLUT_DOWN 0) = selecting := by
  rfl

theorem parkedState_eq :
    step selecting (Event.click 50 450 GLUT_LEFT_BUTTON GLUT_DOWN 0) = parkedState := by
  rfl

theorem confirming_eq :
    run parkedState [Event.click 31 131 GLUT_LEFT_BUTTON GLUT_DOWN 40, Event.render 40]
      = confirming := by
  rfl

theorem reachable_booted : Reachable booted :=
  Reachable.setTextures sampleTextures (Reachable.new _ _) booted_eq

theorem reachable_selecting : Reachable selecting := by
  rw [← selecting_eq]
  exact Reachable.step _ reachable_booted

theorem reachable_parkedState : Reachable parkedState := by
  rw [← parkedState_eq]
  exact Reachable.step _ reachable_selecting

theorem reachable_confirming : Reachable confirming := by
  rw [← confirming_eq]
  exact run_reachable _ _ reachable_parkedState

theorem refresh_of_empty (s : Slot) (now : ℚ) (h : s.parked = false) : s.refresh now = s := by
  simp [Slot.refresh, h]

theorem refresh_carSlot : carSlot.refresh 45 = { carSlot with overstay := true } := by
  rw [refresh_eq]
  have h : carSlot.parked = true ∧ carSlot.overstay = false
      ∧ 30 < carSlot.elapsedSeconds 45 := by
    refine ⟨rfl, rfl, ?_⟩
    rw [elapsedSeconds_of_parked carSlot 45 rfl]
    norm_num [carSlot, Slot.park]
  rw [if_pos h]

theorem overstayed_eq : step parkedState (Event.update 45) = overstayed := by
  have e : parkedState.slots = [carSlot, Slot.new 360 130 280 280, Slot.new 690 130 280 280,
      Slot.new 30 490 280 280, Slot.new 360 490 280 280, Slot.new 690 490 280 280] := by rfl
  have e1 : (step parkedState (Event.update 45)).slots = overstayed.slots := by
    simp only [step, ParkingManager.update, e, List.map_cons, List.map_nil, refresh_carSlot]
    rw [refresh_of_empty _ 45 rfl, refresh_of_empty _ 45 rfl, refresh_of_empty _ 45 rfl,
      refresh_of_empty _ 45 rfl, refresh_of_empty _ 45 rfl]
    rfl
  show ({ parkedState with slots := (step parkedState (Event.update 45)).slots }
    : ParkingManager) = overstayed
  rw [e1]
  rfl

theorem reachable_overstayed : Reachable overstayed := by
  rw [← overstayed_eq]
  exact Reachable.step _ reachable_parkedState

/-! ## The properties at the sample states -/

theorem totalCollected_is_sum_of_removal_bills_witness :
    removalOf confirming (Event.click 400 480 GLUT_LEFT_BUTTON GLUT_DOWN 90)
        = some (0, carSlot.computeBill 90) ∧
      (step confirming (Event.click 400 480 GLUT_LEFT_BUTTON GLUT_DOWN 90)).totalCollected
        = confirming.totalCollected + carSlot.computeBill 90 ∧
      (step confirming (Event.move 400 480)).totalCollected = confirming.totalCollected :=
  ⟨rfl,
    ((totalCollected_is_sum_of_removal_bills confirming []).2.2.2.2.1
      (Event.click 400 480 GLUT_LEFT_BUTTON GLUT_DOWN 90) 0 (carSlot.computeBill 90) rfl).1,
    ((totalCollected_is_sum_of_removal_bills confirming []).2.2.2.1
      (Event.move 400 480) rfl).1⟩

theorem idle_click_selects_or_confirms_witness :
    (booted.onMouseClick 310 410 GLUT_LEFT_BUTTON GLUT_DOWN 0).showSelectionMenu = true ∧
      (booted.onMouseClick 310 410 GLUT_LEFT_BUTTON GLUT_DOWN 0).selectedSlot = 0 ∧
      (booted.onMouseClick 310 410 GLUT_LEFT_BUTTON GLUT_DOWN 0).showConfirm = false :=
  ((idle_click_selects_or_confirms booted 310 410 0 rfl rfl rfl).1 0
    (Slot.new 30 130 280 280) rfl (by decide) (by decide) (by decide) (by decide)).2.1 rfl

theorem selection_click_parks_or_dismisses_witness :
    (∃ v : Vehicle, v.type = VehicleType.BIKE ∧
      (selecting.onMouseClick 124 420 GLUT_LEFT_BUTTON GLUT_DOWN 7).slots[0]?
        = some ((Slot.new 30 130 280 280).park v 7)) ∧
    (selecting.onMouseClick 124 420 GLUT_LEFT_BUTTON GLUT_DOWN 7).showSelectionMenu = false := by
  have h := selection_click_parks_or_dismisses selecting 124 420 7 0
    (Slot.new 30 130 280 280) rfl rfl rfl rfl rfl ⟨rfl, rfl, rfl⟩
  obtain ⟨v, -, -, hb, -, -, hslot, -⟩ := h.2.1 1 (Or.inr (Or.inl rfl))
    (by decide) (by decide) (by decide) (by decide)
  exact ⟨⟨v, hb rfl, hslot⟩, h.1.1⟩

theorem confirm_click_removes_or_dismisses_witness :
    (confirming.onMouseClick 350 507 GLUT_LEFT_BUTTON GLUT_DOWN 90).slots[0]?
        = some (carSlot.removeAndGetBill 90).2 ∧
      (confirming.onMouseClick 350 507 GLUT_LEFT_BUTTON GLUT_DOWN 90).showConfirm = false ∧
      (confirming.onMouseClick 520 459 GLUT_LEFT_BUTTON GLUT_DOWN 90).slots[0]?
        = some carSlot :=
  ⟨((confirm_click_removes_or_dismisses confirming 350 507 90 0 carSlot rfl rfl rfl rfl
      rfl rfl).2.2.1 (by decide) (by decide) (by decide) (by decide)).2.1,
    (confirm_click_removes_or_dismisses confirming 350 507 90 0 carSlot rfl rfl rfl rfl
      rfl rfl).2.1.1,
    ((confirm_click_removes_or_dismisses confirming 520 459 90 0 carSlot rfl rfl rfl rfl
      rfl rfl).2.2.2 (by decide)).2.1⟩

theorem never_both_menu_and_confirm_witness :
    ¬ (selecting.showSelectionMenu = true ∧ selecting.showConfirm = true) ∧
      ¬ (confirming.showSelectionMenu = true ∧ confirming.showConfirm = true) :=
  ⟨(never_both_menu_and_confirm selecting reachable_selecting).1,
    (never_both_menu_and_confirm confirming reachable_confirming).1⟩

theorem overstay_implies_parked_witness :
    ({ carSlot with overstay := true } : Slot) ∈ overstayed.slots ∧
      ({ carSlot with overstay := true } : Slot).overstay = true ∧
      ({ carSlot with overstay := true } : Slot).parked = true :=
  ⟨List.getElem?_mem (rfl : overstayed.slots[0]? = some { carSlot with overstay := true }),
    rfl,
    (overstay_implies_parked overstayed reachable_overstayed).1 _
      (List.getElem?_mem (rfl : overstayed.slots[0]? = some { carSlot with overstay := true }))
      rfl⟩

theorem overstay_flag_lifecycle_witness :
    (step overstayed (Event.update 100)).slots[0]? = some { carSlot with overstay := true } ∧
      (step overstayed (Event.click 31 131 GLUT_LEFT_BUTTON GLUT_DOWN 100)).slots[0]?
        = some { carSlot with overstay := true } ∧
      (parkedState.update 45).slots[0]? = some (carSlot.refresh 45) :=
  ⟨(overstay_flag_lifecycle overstayed reachable_overstayed 0
      { carSlot with overstay := true } rfl).2.2.2.1 rfl (Event.update 100)
      (fun _ h => Option.noConfusion h),
    (overstay_flag_lifecycle overstayed reachable_overstayed 0
      { carSlot with overstay := true } rfl).2.2.2.1 rfl
      (Event.click 31 131 GLUT_LEFT_BUTTON GLUT_DOWN 100)
      (fun _ h => Option.noConfusion h),
    ((overstay_flag_lifecycle parkedState reachable_parkedState 0 carSlot rfl).2.1
      45 rfl).1⟩

/-! ## Parking on an occupied slot -/

theorem parkSelected_of_occupied (m : ParkingManager) (c : VehicleType) (now : ℚ) (i : Nat)
    (s : Slot) (hsel : m.selectedSlot = (i : Int)) (hs : m.slots[i]? = some s)
    (hp : s.parked = true) : m.parkSelected c now = m := by
  unfold ParkingManager.parkSelected
  split_ifs
  · simp [hsel, hs, hp]
  · rfl

/-- C11, as the code has it: on an occupied slot `Slot::park` is not ignored, it stores the
new vehicle and the current clock reading and clears the overstay flag. -/
theorem park_on_occupied_overwrites :
    carSlot.parked = true ∧
      (carSlot.park bikeVehicle 50).vehicle ≠ carSlot.vehicle ∧
      (carSlot.park bikeVehicle 50).start_time ≠ carSlot.start_time ∧
      ({ carSlot with overstay := true } : Slot).parked = true ∧
      (({ carSlot with overstay := true } : Slot).park bikeVehicle 50).overstay
        ≠ ({ carSlot with overstay := true } : Slot).overstay := by
  refine ⟨rfl, ?_, ?_, rfl, ?_⟩
  · simp [Slot.park, carSlot, bikeVehicle]
  · simp [Slot.park, carSlot]
  · simp [Slot.park]

/-- C11, amended: `Slot::park` has no occupancy check and always stores the vehicle and the
clock reading and clears the overstay flag; the check is made by its caller: while the
selection menu is shown for an occupied slot, the guarded call of `handleSelectionClick`
changes nothing, so a left button press leaves every slot, the occupied one with its
vehicle, entry time and overstay flag included, as it was and closes the menu. -/
theorem park_unguarded_and_caller_ignores_occupied (m : ParkingManager) (mx my : Int)
    (now : ℚ) (i : Nat) (s : Slot)
    (hmenu : m.showSelectionMenu = true) (hconf : m.showConfirm = false)
    (hsel : m.selectedSlot = (i : Int)) (hs : m.slots[i]? = some s)
    (hp : s.parked = true) :
    (∀ (t : Slot) (v : Vehicle) (t0 : ℚ),
      (t.park v t0).parked = true ∧ (t.park v t0).vehicle = v ∧
      (t.park v t0).start_time = t0 ∧ (t.park v t0).overstay = false ∧
      (t.park v t0).rect = t.rect) ∧
    (∀ c : VehicleType, m.parkSelected c now = m) ∧
    (m.handleSelectionClick mx my now).2.slots = m.slots ∧
    (m.onMouseClick mx my GLUT_LEFT_BUTTON GLUT_DOWN now).slots = m.slots ∧
    (m.onMouseClick mx my GLUT_LEFT_BUTTON GLUT_DOWN now).slots[i]? = some s ∧
    (m.onMouseClick mx my GLUT_LEFT_BUTTON GLUT_DOWN now).vehicles = m.vehicles ∧
    (m.onMouseClick mx my GLUT_LEFT_BUTTON GLUT_DOWN now).showSelectionMenu = false ∧
    (m.onMouseClick mx my GLUT_LEFT_BUTTON GLUT_DOWN now).selectedSlot = -1 := by
  have hpark : ∀ c : VehicleType, m.parkSelected c now = m :=
    fun c => parkSelected_of_occupied m c now i s hsel hs hp
  have key : m.onMouseClick mx my GLUT_LEFT_BUTTON GLUT_DOWN now = m.closeMenu := by
    rw [onMouseClick_eq]
    simp [hmenu, hconf, hpark]
  have hsl : (m.handleSelectionClick mx my now).2.slots = m.slots := by
    rw [handleSelectionClick_eq]
    simp only [hpark]
    split_ifs <;> rfl
  refine ⟨fun _ _ _ => ⟨rfl, rfl, rfl, rfl, rfl⟩, hpark, hsl, ?_, ?_, ?_, ?_, ?_⟩
  · rw [key]
    rfl
  · rw [key]
    exact hs
  · rw [key]
    rfl
  · rw [key]
    rfl
  · rw [key]
    rfl

theorem park_unguarded_and_caller_ignores_occupied_witness :
    (selectingOccupied.onMouseClick 124 420 GLUT_LEFT_BUTTON GLUT_DOWN 50).slots[0]?
        = some carSlot ∧
      (selectingOccupied.onMouseClick 124 420 GLUT_LEFT_BUTTON GLUT_DOWN 50).showSelectionMenu
        = false ∧
      (carSlot.park bikeVehicle 50).vehicle = bikeVehicle :=
  ⟨(park_unguarded_and_caller_ignores_occupied selectingOccupied 124 420 50 0 carSlot
      rfl rfl rfl rfl rfl).2.2.2.2.1,
    (park_unguarded_and_caller_ignores_occupied selectingOccupied 124 420 50 0 carSlot
      rfl rfl rfl rfl rfl).2.2.2.2.2.2.1,
    ((park_unguarded_and_caller_ignores_occupied selectingOccupied 124 420 50 0 carSlot
      rfl rfl rfl rfl rfl).1 carSlot bikeVehicle 50).2.1⟩

end Parking
